import Mathlib

/-!
Verification of the security-event-aggregator repository.

This file contains a shallow embedding of the parts of the repository that
the claims refer to, and theorems settling each claim:

* `Sha256`: an executable model of `hashlib.sha256` (hex digest), used by
  `generate_correlation_id` in
  `services/event-processor/src/correlators/correlator.py`.
* `CloudTrail`: the CloudTrail normalizer
  (`services/event-ingest/src/normalizers/cloudtrail.py`).
* `GuardDuty`: the network-extraction part of the GuardDuty normalizer
  (`services/event-ingest/src/normalizers/guardduty.py`).
* `Correlator`: the four rule evaluators, `correlate_events` and
  `calculate_risk_score` (`services/event-processor/src/correlators/correlator.py`).
* `Alerts`: `should_alert` (`services/event-processor/src/alerting/alerts.py`).

Python dictionaries are modelled by structures whose fields are `Option`s
(`none` = key absent); `dict.get(k, d)` becomes `Option.getD`.  Python
strings are Lean `String`s; all strings appearing in the relevant code
paths are ASCII.
-/

namespace SEA

/-! ## Generic helpers for Python string and dict idioms -/

/-- Lexicographic order on char lists by code point, as Python compares
strings.  `strLeChars a b` is true iff `a <= b`. -/
def strLeChars : List Char → List Char → Bool
  | [], _ => true
  | _ :: _, [] => false
  | a :: as, b :: bs =>
    if a.toNat < b.toNat then true
    else if b.toNat < a.toNat then false
    else strLeChars as bs

/-- Python `s <= t` on strings. -/
def pyStrLe (s t : String) : Bool := strLeChars s.data t.data

/-- Python `s.startswith(p)`. -/
def pyStartsWith (s p : String) : Bool := p.data.isPrefixOf s.data

/-- Python `s.startswith((p1, ..., pn))`. -/
def pyStartsAny (s : String) (ps : List String) : Bool := ps.any (fun p => pyStartsWith s p)

/-- Helper for Python `sub in s` (substring containment) on char lists. -/
def containsChars (sub : List Char) : List Char → Bool
  | [] => sub.isEmpty
  | c :: rest => sub.isPrefixOf (c :: rest) || containsChars sub rest

/-- Python `sub in s` (substring containment). -/
def pyContains (s sub : String) : Bool := containsChars sub.data s.data

/-- ASCII lowercasing of one character (as Python `str.lower` on ASCII). -/
def lowerChar (c : Char) : Char :=
  if 65 ≤ c.toNat ∧ c.toNat ≤ 90 then Char.ofNat (c.toNat + 32) else c

/-- ASCII lowercasing (as Python `str.lower` on the ASCII strings used here). -/
def pyLower (s : String) : String := ⟨s.data.map lowerChar⟩

/-- Python truthiness of an optional string: `None` and `""` are falsy. -/
def truthyStr : Option String → Bool
  | none => false
  | some s => !(s = "")

/-- Python `v in l` where `v` was read with `dict.get` (so may be `None`);
`None in l` is false for a list of strings. -/
def optIn (v : Option String) (l : List String) : Bool :=
  match v with
  | some s => l.contains s
  | none => false

/-- Scan for the first occurrence of `sub` (itself newline-free), failing at a
newline; returns the remainder after the occurrence.  This is the single-step
engine for matching a `.*sub` regex fragment where `.` does not cross
newlines (as in `re.match`). -/
def findSub (sub : List Char) : List Char → Option (List Char)
  | [] => if sub.isEmpty then some [] else none
  | c :: rest =>
    if sub.isPrefixOf (c :: rest) then some ((c :: rest).drop sub.length)
    else if c = '\n' then none
    else findSub sub rest

/-- `matchesDotStarSeq [a, b, ...] s` models
`re.match(".*a.*b.*...", s) is not None`: the fragments occur in order,
with no newline before the last fragment ends.  Callers lowercase both
sides to model `re.IGNORECASE` on ASCII. -/
def matchesDotStarSeq (subs : List (List Char)) (l : List Char) : Bool :=
  match subs with
  | [] => true
  | s :: rest =>
    match findSub s l with
    | none => false
    | some rem => matchesDotStarSeq rest rem

/-- Helper for `dedupFirst`: skip elements already seen. -/
def dedupFirstAux : List (Option String) → List (Option String) → List (Option String)
  | [], _ => []
  | x :: xs, seen =>
    if seen.contains x then dedupFirstAux xs seen else x :: dedupFirstAux xs (x :: seen)

/-- Deduplication keeping first occurrences.  This stands in for Python
`list(set(xs))`, whose iteration order is unspecified; no claim in this
development depends on the order of the deduplicated lists. -/
def dedupFirst (l : List (Option String)) : List (Option String) := dedupFirstAux l []

/-- Stable insert: place `x` before the first element it is `le` to. -/
def pyInsert {α : Type} (le : α → α → Bool) (x : α) : List α → List α
  | [] => [x]
  | y :: ys => if le x y then x :: y :: ys else y :: pyInsert le x ys

/-- Python `sorted(l, key=...)` as a stable ascending insertion sort; for a
total preorder `le` this is the unique stable ascending ordering, which is
what `sorted` guarantees. -/
def pySorted {α : Type} (le : α → α → Bool) : List α → List α
  | [] => []
  | x :: xs => pyInsert le x (pySorted le xs)

/-- Python `str.replace("Z", "+00:00")` (single-character pattern, so a
per-character expansion is exact). -/
def replaceZ (s : String) : String :=
  ⟨s.data.foldr (fun c acc => if c = 'Z' then '+' :: '0' :: '0' :: ':' :: '0' :: '0' :: acc else c :: acc) []⟩

/-! ## SHA-256 (model of `hashlib.sha256`, used by `generate_correlation_id`)

The round constants and initial state are derived, as in the SHA-256
standard, from the fractional parts of the cube roots (resp. square roots)
of the first 64 (resp. 8) primes. -/

namespace Sha256

def add32 (a b : Nat) : Nat := (a + b) % 4294967296

def not32 (n : Nat) : Nat := 4294967295 - n

def rotr (k n : Nat) : Nat := n / 2 ^ k + n % 2 ^ k * 2 ^ (32 - k)

/-- 32-bit AND via the identity `a AND b = (a + b - (a XOR b)) / 2`,
valid for all naturals. -/
def land32 (a b : Nat) : Nat := (a + b - (a ^^^ b)) / 2

def xor3 (a b c : Nat) : Nat := (a ^^^ b) ^^^ c

/-- Integer cube root by binary search (used to derive the round constants). -/
def icbrtAux (n : Nat) : Nat → Nat → Nat → Nat
  | lo, _, 0 => lo
  | lo, hi, fuel + 1 =>
    if hi ≤ lo + 1 then lo
    else
      let mid := (lo + hi) / 2
      if mid ^ 3 ≤ n then icbrtAux n mid hi fuel else icbrtAux n lo mid fuel

def icbrt (n : Nat) : Nat := icbrtAux n 0 (n + 1) 200

/-- Integer square root by binary search (used to derive the initial state). -/
def isqrtAux (n : Nat) : Nat → Nat → Nat → Nat
  | lo, _, 0 => lo
  | lo, hi, fuel + 1 =>
    if hi ≤ lo + 1 then lo
    else
      let mid := (lo + hi) / 2
      if mid ^ 2 ≤ n then isqrtAux n mid hi fuel else isqrtAux n lo mid fuel

def isqrt (n : Nat) : Nat := isqrtAux n 0 (n + 1) 200

/-- The first 64 primes, in order. -/
def primes64 : List Nat :=
  [2, 3, 5, 7, 11, 13, 17, 19, 23, 29, 31, 37, 41, 43, 47, 53,
   59, 61, 67, 71, 73, 79, 83, 89, 97, 101, 103, 107, 109, 113, 127, 131,
   137, 139, 149, 151, 157, 163, 167, 173, 179, 181, 191, 193, 197, 199, 211, 223,
   227, 229, 233, 239, 241, 251, 257, 263, 269, 271, 277, 281, 283, 293, 307, 311]

/-- Round constants: fractional parts of the cube roots of the first 64 primes. -/
def K : List Nat := primes64.map (fun p => icbrt (p * 2 ^ 96) % 4294967296)

/-- Initial hash state: fractional parts of the square roots of the first 8 primes. -/
def H0 : List Nat := (primes64.take 8).map (fun p => isqrt (p * 2 ^ 64) % 4294967296)

def bigSigma0 (x : Nat) : Nat := xor3 (rotr 2 x) (rotr 13 x) (rotr 22 x)

def bigSigma1 (x : Nat) : Nat := xor3 (rotr 6 x) (rotr 11 x) (rotr 25 x)

def smallSigma0 (x : Nat) : Nat := xor3 (rotr 7 x) (rotr 18 x) (x / 2 ^ 3)

def smallSigma1 (x : Nat) : Nat := xor3 (rotr 17 x) (rotr 19 x) (x / 2 ^ 10)

/-- Big-endian 8-byte encoding of a number below 2^64. -/
def be64 (n : Nat) : List Nat :=
  [n / 2 ^ 56 % 256, n / 2 ^ 48 % 256, n / 2 ^ 40 % 256, n / 2 ^ 32 % 256,
   n / 2 ^ 24 % 256, n / 2 ^ 16 % 256, n / 2 ^ 8 % 256, n % 256]

/-- SHA-256 padding: append 0x80, zero bytes to 56 mod 64, then the bit length. -/
def padBytes (msg : List Nat) : List Nat :=
  let L := msg.length
  msg ++ 128 :: List.replicate ((119 - L % 64) % 64) 0 ++ be64 (8 * L)

/-- Group bytes into big-endian 32-bit words. -/
def toWords : List Nat → List Nat
  | b0 :: b1 :: b2 :: b3 :: rest => (((b0 * 256 + b1) * 256 + b2) * 256 + b3) :: toWords rest
  | _ => []

/-- Split a word list into 16-word blocks. -/
def toBlocks : List Nat → List (List Nat)
  | w0 :: w1 :: w2 :: w3 :: w4 :: w5 :: w6 :: w7 ::
    w8 :: w9 :: w10 :: w11 :: w12 :: w13 :: w14 :: w15 :: rest =>
      [w0, w1, w2, w3, w4, w5, w6, w7, w8, w9, w10, w11, w12, w13, w14, w15] :: toBlocks rest
  | _ => []

/-- Message-schedule extension: grow the 16 block words to 64. -/
def schedAux : List Nat → Nat → List Nat
  | ws, 0 => ws
  | ws, fuel + 1 =>
    let i := ws.length
    let w := add32 (add32 (ws.getD (i - 16) 0) (smallSigma0 (ws.getD (i - 15) 0)))
                   (add32 (ws.getD (i - 7) 0) (smallSigma1 (ws.getD (i - 2) 0)))
    schedAux (ws ++ [w]) fuel

def schedule (block : List Nat) : List Nat := schedAux block 48

/-- The eight working variables of the compression function. -/
structure St where
  a : Nat
  b : Nat
  c : Nat
  d : Nat
  e : Nat
  f : Nat
  g : Nat
  h : Nat

def compressStep (st : St) (kw : Nat × Nat) : St :=
  let s1 := bigSigma1 st.e
  let ch := land32 st.e st.f ^^^ land32 (not32 st.e) st.g
  let t1 := add32 (add32 (add32 st.h s1) ch) (add32 kw.1 kw.2)
  let s0 := bigSigma0 st.a
  let mj := xor3 (land32 st.a st.b) (land32 st.a st.c) (land32 st.b st.c)
  let t2 := add32 s0 mj
  ⟨add32 t1 t2, st.a, st.b, st.c, add32 st.d t1, st.e, st.f, st.g⟩

def compressBlock (hs : List Nat) (block : List Nat) : List Nat :=
  let ws := schedule block
  let init : St := ⟨hs.getD 0 0, hs.getD 1 0, hs.getD 2 0, hs.getD 3 0,
                    hs.getD 4 0, hs.getD 5 0, hs.getD 6 0, hs.getD 7 0⟩
  let st := (K.zip ws).foldl compressStep init
  [add32 (hs.getD 0 0) st.a, add32 (hs.getD 1 0) st.b, add32 (hs.getD 2 0) st.c,
   add32 (hs.getD 3 0) st.d, add32 (hs.getD 4 0) st.e, add32 (hs.getD 5 0) st.f,
   add32 (hs.getD 6 0) st.g, add32 (hs.getD 7 0) st.h]

def sha256Words (msg : List Nat) : List Nat :=
  (toBlocks (toWords (padBytes msg))).foldl compressBlock H0

/-- The lowercase hex digit for a value below 16. -/
def hexDigit (n : Nat) : Char :=
  ("0123456789abcdef".data).getD n (Char.ofNat 48)

def hexWord (n : Nat) : List Char :=
  [hexDigit (n / 2 ^ 28 % 16), hexDigit (n / 2 ^ 24 % 16), hexDigit (n / 2 ^ 20 % 16),
   hexDigit (n / 2 ^ 16 % 16), hexDigit (n / 2 ^ 12 % 16), hexDigit (n / 2 ^ 8 % 16),
   hexDigit (n / 2 ^ 4 % 16), hexDigit (n % 16)]

/-- UTF-8 bytes of a string; every string hashed in this development is ASCII,
for which code points and UTF-8 bytes agree. -/
def strBytes (s : String) : List Nat := s.data.map Char.toNat

/-- Model of `hashlib.sha256(s.encode()).hexdigest()`. -/
def sha256Hex (s : String) : String :=
  ⟨(sha256Words (strBytes s)).foldr (fun w acc => hexWord w ++ acc) []⟩

/-- Model of `hashlib.sha256(s.encode()).hexdigest()[:16]` (the first 16 hex
characters are exactly the first two big-endian words of the digest). -/
def sha256Hex16 (s : String) : String :=
  ⟨((sha256Words (strBytes s)).take 2).foldr (fun w acc => hexWord w ++ acc) []⟩

end Sha256

/-! ## CloudTrail normalizer
(`services/event-ingest/src/normalizers/cloudtrail.py`)

`SecurityEvent.event_id` and `ingested_at` are produced by nondeterministic
defaults (`uuid4`, `utcnow`) and are referenced by no claim; they are left
out of the embedded output record.  The wall clock is a parameter `now`
(one invocation reads it at most twice, microseconds apart; the embedding
treats the two reads as equal). -/

namespace CloudTrail

/-- MITRE mapping entry (`models.MitreAttackInfo` with all fields set). -/
structure MitreAttackInfo where
  tactic : String
  technique_id : String
  technique_name : String
deriving DecidableEq, Repr

/-- `MITRE_MAPPINGS` of cloudtrail.py: static table from eventName to technique. -/
def MITRE_MAPPINGS (eventName : String) : Option MitreAttackInfo :=
  if eventName = "ConsoleLogin" then some ⟨"Initial Access", "T1078", "Valid Accounts"⟩
  else if eventName = "CreateUser" then some ⟨"Persistence", "T1136.003", "Create Account: Cloud Account"⟩
  else if eventName = "CreateAccessKey" then some ⟨"Persistence", "T1098.001", "Account Manipulation: Additional Cloud Credentials"⟩
  else if eventName = "CreateRole" then some ⟨"Persistence", "T1098", "Account Manipulation"⟩
  else if eventName = "AttachUserPolicy" then some ⟨"Persistence", "T1098", "Account Manipulation"⟩
  else if eventName = "AttachRolePolicy" then some ⟨"Persistence", "T1098", "Account Manipulation"⟩
  else if eventName = "AssumeRole" then some ⟨"Privilege Escalation", "T1548", "Abuse Elevation Control Mechanism"⟩
  else if eventName = "UpdateAssumeRolePolicy" then some ⟨"Privilege Escalation", "T1548", "Abuse Elevation Control Mechanism"⟩
  else if eventName = "StopLogging" then some ⟨"Defense Evasion", "T1562.008", "Impair Defenses: Disable Cloud Logs"⟩
  else if eventName = "DeleteTrail" then some ⟨"Defense Evasion", "T1562.008", "Impair Defenses: Disable Cloud Logs"⟩
  else if eventName = "UpdateTrail" then some ⟨"Defense Evasion", "T1562.008", "Impair Defenses: Disable Cloud Logs"⟩
  else if eventName = "PutEventSelectors" then some ⟨"Defense Evasion", "T1562.008", "Impair Defenses: Disable Cloud Logs"⟩
  else if eventName = "DeleteFlowLogs" then some ⟨"Defense Evasion", "T1562.008", "Impair Defenses: Disable Cloud Logs"⟩
  else if eventName = "GetSecretValue" then some ⟨"Credential Access", "T1555", "Credentials from Password Stores"⟩
  else if eventName = "GetPasswordData" then some ⟨"Credential Access", "T1555", "Credentials from Password Stores"⟩
  else if eventName = "DescribeInstances" then some ⟨"Discovery", "T1580", "Cloud Infrastructure Discovery"⟩
  else if eventName = "ListBuckets" then some ⟨"Discovery", "T1580", "Cloud Infrastructure Discovery"⟩
  else if eventName = "ListUsers" then some ⟨"Discovery", "T1087.004", "Account Discovery: Cloud Account"⟩
  else if eventName = "ListRoles" then some ⟨"Discovery", "T1087.004", "Account Discovery: Cloud Account"⟩
  else if eventName = "GetObject" then some ⟨"Exfiltration", "T1530", "Data from Cloud Storage"⟩
  else if eventName = "DeleteBucket" then some ⟨"Impact", "T1485", "Data Destruction"⟩
  else if eventName = "TerminateInstances" then some ⟨"Impact", "T1489", "Service Stop"⟩
  else none

/-- `HIGH_SEVERITY_EVENTS` of cloudtrail.py. -/
def HIGH_SEVERITY_EVENTS : List String :=
  ["ConsoleLogin", "CreateUser", "CreateAccessKey", "DeleteTrail", "StopLogging",
   "PutBucketPolicy", "PutBucketAcl", "AuthorizeSecurityGroupIngress",
   "CreateSecurityGroup", "ModifyInstanceAttribute", "RunInstances"]

/-- `re.match(p, event_name, re.IGNORECASE)` for the four
`CRITICAL_SEVERITY_PATTERNS` of cloudtrail.py, in order:
`.*Delete.*Trail.*`, `.*Stop.*Logging.*`, `.*Disable.*`, `.*Root.*`. -/
def matchesCriticalPattern (event_name : String) : Bool :=
  let l := (pyLower event_name).data
  matchesDotStarSeq ["delete".data, "trail".data] l ||
  matchesDotStarSeq ["stop".data, "logging".data] l ||
  matchesDotStarSeq ["disable".data] l ||
  matchesDotStarSeq ["root".data] l

/-- `determine_severity` of cloudtrail.py.  Severities are represented by
their string values (`EventSeverity.<X>.value`). -/
def determine_severity (event_name : String) (error_code : Option String)
    (user_type : Option String) : String :=
  if user_type = some "Root" then "critical"
  else if matchesCriticalPattern event_name then "critical"
  else if optIn error_code ["AccessDenied", "UnauthorizedAccess", "InvalidClientTokenId"] then "high"
  else if HIGH_SEVERITY_EVENTS.contains event_name then "high"
  else if pyStartsWith event_name "List" || pyStartsWith event_name "Describe" then "low"
  else if pyStartsWith event_name "Get" then "low"
  else "info"

/-- `categorize_event` of cloudtrail.py.  The second branch preserves the
Python operator precedence of the source line
`event_source == "iam.amazonaws.com" or event_name.startswith((...)) and
"User" in event_name or "Role" in event_name or "Policy" in event_name`,
i.e. `A or (B and C) or D or E`. -/
def categorize_event (event_name : String) (event_source : String) : String :=
  if ["ConsoleLogin", "GetFederationToken", "GetSessionToken", "AssumeRole",
      "AssumeRoleWithSAML", "AssumeRoleWithWebIdentity"].contains event_name then
    "authentication"
  else if event_source = "iam.amazonaws.com" ||
          (pyStartsAny event_name ["Create", "Delete", "Update", "Attach", "Detach", "Put"] &&
           pyContains event_name "User") ||
          pyContains event_name "Role" ||
          pyContains event_name "Policy" then
    "identity_management"
  else if ["ec2.amazonaws.com"].contains event_source &&
          (["SecurityGroup", "Vpc", "Subnet", "Route", "NetworkAcl"].any
            (fun x => pyContains event_name x)) then
    "network_security"
  else if event_source = "s3.amazonaws.com" ||
          ["GetObject", "PutObject", "DeleteObject"].contains event_name then
    "data_access"
  else if ["cloudtrail.amazonaws.com", "logs.amazonaws.com"].contains event_source then
    "logging"
  else if pyStartsAny event_name ["Create", "Delete", "Modify", "Update", "Terminate"] then
    "resource_modification"
  else if pyStartsAny event_name ["List", "Describe", "Get"] then
    "discovery"
  else "other"

/-- Shape check for the ISO-8601 strings `datetime.fromisoformat` accepts in
this code path: `YYYY-MM-DDTHH:MM:SS`, optionally followed by a fractional
part and/or a `+HH:MM` offset. -/
def isoTail : List Char → Bool
  | [] => true
  | '+' :: h1 :: h2 :: ':' :: m1 :: m2 :: [] => h1.isDigit && h2.isDigit && m1.isDigit && m2.isDigit
  | _ => false

def isoFracTail : List Char → Bool
  | [] => false
  | l => (l.takeWhile Char.isDigit).length > 0 && isoTail (l.dropWhile Char.isDigit)

def isIsoShape (s : String) : Bool :=
  match s.data with
  | y1 :: y2 :: y3 :: y4 :: '-' :: m1 :: m2 :: '-' :: d1 :: d2 :: 'T' ::
    h1 :: h2 :: ':' :: n1 :: n2 :: ':' :: s1 :: s2 :: rest =>
      [y1, y2, y3, y4, m1, m2, d1, d2, h1, h2, n1, n2, s1, s2].all Char.isDigit &&
      (match rest with
       | [] => true
       | '.' :: fr => isoFracTail fr
       | _ => isoTail rest)
  | _ => false

/-- Model of `datetime.fromisoformat`, restricted to the shapes this
repository feeds it: the parsed instant is represented by its source string;
strings not of the ISO shape raise (modelled as `none`). -/
def fromisoformat (s : String) : Option String :=
  if isIsoShape s then some s else none

/-- `userIdentity.sessionContext.sessionIssuer` sub-map. -/
structure SessionIssuer where
  userName : Option String := none
deriving DecidableEq, Repr

structure SessionContext where
  sessionIssuer : Option SessionIssuer := none
deriving DecidableEq, Repr

/-- The `userIdentity` sub-map of a raw CloudTrail record (`type` is called
`utype` because `type` is not a usable field name in Lean). -/
structure UserIdentity where
  utype : Option String := none
  principalId : Option String := none
  arn : Option String := none
  accountId : Option String := none
  accessKeyId : Option String := none
  userName : Option String := none
  sessionContext : Option SessionContext := none
deriving DecidableEq, Repr

/-- One entry of the raw `resources` list (`type` is called `rtype`). -/
structure RawResource where
  ARN : Option String := none
  rtype : Option String := none
deriving DecidableEq, Repr

/-- A raw CloudTrail record, restricted to the keys the normalizer reads.
`none` models an absent key. -/
structure RawCloudTrail where
  eventName : Option String := none
  eventSource : Option String := none
  eventTime : Option String := none
  userIdentity : Option UserIdentity := none
  awsRegion : Option String := none
  sourceIPAddress : Option String := none
  userAgent : Option String := none
  errorCode : Option String := none
  errorMessage : Option String := none
  eventID : Option String := none
  resources : List RawResource := []
deriving DecidableEq, Repr

/-- `models.ActorInfo`. -/
structure ActorInfo where
  principal_id : Option String := none
  principal_type : Option String := none
  arn : Option String := none
  access_key_id : Option String := none
  user_name : Option String := none
  session_name : Option String := none
deriving DecidableEq, Repr

/-- `models.NetworkInfo`, restricted to the fields this normalizer sets. -/
structure CTNetworkInfo where
  source_ip : Option String := none
  user_agent : Option String := none
deriving DecidableEq, Repr

/-- `models.AWSContext`. -/
structure AWSContext where
  account_id : Option String := none
  region : Option String := none
  service : Option String := none
  resource_arn : Option String := none
  resource_type : Option String := none
deriving DecidableEq, Repr

/-- The normalized `SecurityEvent` as produced by this normalizer
(without the nondeterministic `event_id` / `ingested_at`; `raw_event` is
the input record itself and is omitted as redundant). -/
structure CTSecurityEvent where
  source : String
  source_event_id : Option String
  event_time : String
  event_type : String
  event_category : String
  severity : String
  status : String
  title : String
  description : String
  aws_context : AWSContext
  actor : ActorInfo
  network : CTNetworkInfo
  mitre_attack : Option MitreAttackInfo
  tags : List String
deriving DecidableEq, Repr

/-- Python `event_source.split(".")[0]`. -/
def serviceShort (event_source : String) : String :=
  ⟨event_source.data.takeWhile (fun c => !(c = '.'))⟩

/-- `normalize_cloudtrail_event` of cloudtrail.py.  `now` is the wall clock
(`datetime.utcnow().isoformat()`). -/
def normalize_cloudtrail_event (now : String) (raw_event : RawCloudTrail) : CTSecurityEvent :=
  let event_name := raw_event.eventName.getD "Unknown"
  let event_source := raw_event.eventSource.getD "unknown"
  let event_time_str := raw_event.eventTime.getD now
  let event_time :=
    match fromisoformat (replaceZ event_time_str) with
    | some t => t
    | none => now
  let user_identity := raw_event.userIdentity.getD {}
  let user_type := user_identity.utype
  let actor : ActorInfo :=
    { principal_id := user_identity.principalId
      principal_type := user_type
      arn := user_identity.arn
      access_key_id := user_identity.accessKeyId
      user_name := user_identity.userName
      session_name := ((user_identity.sessionContext.getD {}).sessionIssuer.getD {}).userName }
  let network : CTNetworkInfo :=
    { source_ip := raw_event.sourceIPAddress, user_agent := raw_event.userAgent }
  let aws_base : AWSContext :=
    { account_id := user_identity.accountId
      region := raw_event.awsRegion
      service := if event_source = "" then none else some (serviceShort event_source) }
  let aws_context :=
    match raw_event.resources with
    | [] => aws_base
    | r :: _ => { aws_base with resource_arn := r.ARN, resource_type := r.rtype }
  let error_code := raw_event.errorCode
  let severity := determine_severity event_name error_code user_type
  let mitre_attack := MITRE_MAPPINGS event_name
  let title :=
    "CloudTrail: " ++ event_name ++
    (if truthyStr error_code then " (" ++ error_code.getD "" ++ ")" else "")
  let description :=
    "AWS " ++ event_name ++ " event from " ++ event_source ++
    (if truthyStr actor.user_name then " by user " ++ actor.user_name.getD ""
     else if truthyStr actor.arn then " by " ++ actor.arn.getD "" else "") ++
    (if truthyStr error_code then
       ". Error: " ++ error_code.getD "" ++ " - " ++ raw_event.errorMessage.getD ""
     else "")
  let category := categorize_event event_name event_source
  let tags :=
    ["cloudtrail", if event_source = "" then "aws" else serviceShort event_source] ++
    (if truthyStr error_code then ["error", pyLower (error_code.getD "")] else []) ++
    (if user_type = some "Root" then ["root-account"] else []) ++
    (match mitre_attack with
     | some m => ["mitre-" ++ m.technique_id]
     | none => [])
  { source := "cloudtrail"
    source_event_id := raw_event.eventID
    event_time := event_time
    event_type := event_name
    event_category := category
    severity := severity
    status := "new"
    title := title
    description := description
    aws_context := aws_context
    actor := actor
    network := network
    mitre_attack := mitre_attack
    tags := tags }

end CloudTrail

/-! ## GuardDuty normalizer, network extraction
(`services/event-ingest/src/normalizers/guardduty.py`, lines 256-283)

Only the network sub-record of `normalize_guardduty_finding` is claimed
about; `extract_network` below is the exact translation of that block.
An empty sub-dict is falsy in Python exactly like an absent key, so both
are modelled by `none`. -/

namespace GuardDuty

/-- `RemoteIpDetails` sub-map. -/
structure RemoteIpDetails where
  IpAddressV4 : Option String := none
deriving DecidableEq, Repr

/-- `LocalPortDetails` / `RemotePortDetails` sub-map. -/
structure PortDetails where
  Port : Option Int := none
deriving DecidableEq, Repr

/-- `Service.Action.NetworkConnectionAction`. -/
structure NetworkConnectionAction where
  RemoteIpDetails : Option RemoteIpDetails := none
  LocalPortDetails : Option PortDetails := none
  RemotePortDetails : Option PortDetails := none
  Protocol : Option String := none
deriving DecidableEq, Repr

/-- `Service.Action.AwsApiCallAction`. -/
structure AwsApiCallAction where
  RemoteIpDetails : Option RemoteIpDetails := none
  UserAgent : Option String := none
deriving DecidableEq, Repr

/-- `Service.Action`. -/
structure GDAction where
  NetworkConnectionAction : Option NetworkConnectionAction := none
  AwsApiCallAction : Option AwsApiCallAction := none
deriving DecidableEq, Repr

/-- `models.NetworkInfo` as populated by the GuardDuty normalizer. -/
structure GDNetworkInfo where
  source_ip : Option String := none
  source_port : Option Int := none
  destination_ip : Option String := none
  destination_port : Option Int := none
  protocol : Option String := none
  user_agent : Option String := none
deriving DecidableEq, Repr

/-- Lines 260-283 of guardduty.py: build `network` from
`NetworkConnectionAction`, then, if `AwsApiCallAction` is present, overwrite
`source_ip` and `user_agent` on the (possibly fresh) record. -/
def extract_network (action : GDAction) : Option GDNetworkInfo :=
  let network : Option GDNetworkInfo :=
    match action.NetworkConnectionAction with
    | none => none
    | some nc =>
      some { source_ip := (nc.RemoteIpDetails.getD {}).IpAddressV4
             source_port := (nc.RemotePortDetails.getD {}).Port
             destination_ip := none
             destination_port := (nc.LocalPortDetails.getD {}).Port
             protocol := nc.Protocol
             user_agent := none }
  match action.AwsApiCallAction with
  | none => network
  | some api =>
    let base := network.getD {}
    some { base with
           source_ip := (api.RemoteIpDetails.getD {}).IpAddressV4
           user_agent := api.UserAgent }

end GuardDuty

/-! ## Correlator
(`services/event-processor/src/correlators/correlator.py`)

The correlator receives events as plain dictionaries (the stored form of
`SecurityEvent`).  `EventDict` models a dictionary with the keys the
correlator reads; `none` is an absent key.  A stored event whose `network`
or `actor` key holds `None` (rather than a sub-dict) would raise
`AttributeError` in the Python source; such inputs are outside this
embedding, which models absent-or-dict values only. -/

namespace Correlator

/-- The `network` sub-dict.  The outer `Option` on `source_ip` is key
presence; the inner one is the (possibly `None`) value. -/
structure NetworkDict where
  source_ip : Option (Option String) := none
deriving DecidableEq, Repr

/-- The `actor` sub-dict. -/
structure ActorDict where
  user_name : Option String := none
  arn : Option String := none
deriving DecidableEq, Repr

/-- An event dictionary as read by the correlator.  `mitre_attack` keeps
only its Python truthiness (the risk scorer reads nothing else from it);
`source_ip` is the top-level key of that name, which `generate_correlation_id`
reads (stored canonical events have no such key, only `network.source_ip`). -/
structure EventDict where
  event_id : Option String := none
  event_type : Option String := none
  event_time : Option String := none
  severity : Option String := none
  tags : List String := []
  network : Option NetworkDict := none
  actor : Option ActorDict := none
  source_ip : Option String := none
  mitre_attack : Bool := false
deriving DecidableEq, Repr, Inhabited

/-- A correlation record as built by the four rule evaluators.  Fields a
given rule does not set are `none`. -/
structure CorrelationRecord where
  rule : String
  description : String
  source_ip : Option (Option String) := none
  actor : Option String := none
  sequence : Option (List (Option String)) := none
  event_count : Nat
  event_ids : List (Option String)
  event_types : Option (List (Option String)) := none
  severity : String
  correlation_id : String
deriving DecidableEq, Repr, Inhabited

/-- `generate_correlation_id` of correlator.py: hash of
`rule_name:first_event.get("event_type", ""):first_event.get("source_ip", "")`
over the first event of the list as given (`events[0] if events else {}`). -/
def generate_correlation_id (events : List EventDict) (rule_name : String) : String :=
  let first_event := events.headD {}
  Sha256.sha256Hex16
    (rule_name ++ ":" ++ first_event.event_type.getD "" ++ ":" ++ first_event.source_ip.getD "")

/-- `event.get("network", {}).get("source_ip", "unknown")`. -/
def ipKey (e : EventDict) : Option String :=
  match e.network with
  | none => some "unknown"
  | some n =>
    match n.source_ip with
    | none => some "unknown"
    | some v => v

/-- `actor.get("user_name") or actor.get("arn") or "unknown"` over
`actor = event.get("actor", {})` (Python `or` falls through on `None` and
on the empty string). -/
def actorKey (e : EventDict) : String :=
  let a := e.actor.getD {}
  if truthyStr a.user_name then a.user_name.getD ""
  else if truthyStr a.arn then a.arn.getD ""
  else "unknown"

/-- Insert into a Python dict-of-lists: append to the entry with this key,
or add a fresh entry at the end (dicts iterate in insertion order). -/
def pyUpsert {κ : Type} [DecidableEq κ] (k : κ) (e : EventDict) :
    List (κ × List EventDict) → List (κ × List EventDict)
  | [] => [(k, [e])]
  | (k0, es) :: rest =>
    if k0 = k then (k0, es ++ [e]) :: rest else (k0, es) :: pyUpsert k e rest

/-- The `events_by_ip` / `events_by_actor` grouping loops of correlator.py. -/
def pyGroupBy {κ : Type} [DecidableEq κ] (key : EventDict → κ) (events : List EventDict) :
    List (κ × List EventDict) :=
  events.foldl (fun acc e => pyUpsert (key e) e acc) []

/-- Lookup of a key's bucket in the association list built by `pyGroupBy`
(proof infrastructure; `[]` when the key is absent). -/
def findBucket {κ : Type} [DecidableEq κ] (k : κ) :
    List (κ × List EventDict) → List EventDict
  | [] => []
  | (k0, es) :: rest => if k0 = k then es else findBucket k rest

/-- `check_brute_force` of correlator.py (the `time_window` parameter is
unused by the source body and omitted). -/
def check_brute_force (events : List EventDict) : Option CorrelationRecord :=
  let login_events := events.filter (fun e => optIn e.event_type ["ConsoleLogin"])
  if login_events.length < 5 then none
  else
    (pyGroupBy ipKey login_events).findSome? (fun kv =>
      let failed_events := kv.2.filter (fun e =>
        ["accessdenied", "unauthorizedaccess", "error"].any (fun tag => e.tags.contains tag))
      if 5 ≤ failed_events.length then
        some { rule := "brute_force"
               description := "Multiple failed authentication attempts"
               source_ip := some kv.1
               event_count := failed_events.length
               event_ids := failed_events.map (fun e => e.event_id)
               severity := "high"
               correlation_id := generate_correlation_id failed_events "brute_force" }
      else none)

/-- One step of the scan loop of `check_privilege_escalation`: track the
latest successful ConsoleLogin, collect IAM follow-ups seen after one. -/
def privEscStep (st : Option EventDict × List EventDict) (event : EventDict) :
    Option EventDict × List EventDict :=
  let event_type := event.event_type.getD ""
  if event_type = "ConsoleLogin" ∧ ¬ (event.tags.contains "error" = true) then
    (some event, st.2)
  else if st.1.isSome ∧
          (["CreateAccessKey", "CreateUser", "AttachUserPolicy", "AttachRolePolicy"].contains
            event_type = true) then
    (st.1, st.2 ++ [event])
  else st

/-- The comparator of `sorted(actor_events, key=lambda e: e.get("event_time", ""))`. -/
def timeLe (a b : EventDict) : Bool := pyStrLe (a.event_time.getD "") (b.event_time.getD "")

/-- `check_privilege_escalation` of correlator.py. -/
def check_privilege_escalation (events : List EventDict) : Option CorrelationRecord :=
  (pyGroupBy actorKey events).findSome? (fun kv =>
    let sorted_events := pySorted timeLe kv.2
    let st := sorted_events.foldl privEscStep (none, [])
    match st.1, st.2 with
    | some login_event, iam0 :: iamRest =>
      let all_events := login_event :: iam0 :: iamRest
      some { rule := "privilege_escalation"
             description := "IAM modifications following authentication"
             actor := some kv.1
             sequence := some (all_events.map (fun e => e.event_type))
             event_count := all_events.length
             event_ids := all_events.map (fun e => e.event_id)
             severity := "critical"
             correlation_id := generate_correlation_id all_events "privilege_escalation" }
    | _, _ => none)

/-- `check_logging_tampering` of correlator.py. -/
def check_logging_tampering (events : List EventDict) : Option CorrelationRecord :=
  let tampering_events := events.filter (fun e =>
    optIn e.event_type ["StopLogging", "DeleteTrail", "UpdateTrail"])
  match tampering_events with
  | [] => none
  | _ :: _ =>
    some { rule := "logging_tampering"
           description := "CloudTrail logging modifications"
           event_count := tampering_events.length
           event_ids := tampering_events.map (fun e => e.event_id)
           event_types := some (dedupFirst (tampering_events.map (fun e => e.event_type)))
           severity := "critical"
           correlation_id := generate_correlation_id tampering_events "logging_tampering" }

/-- `check_reconnaissance` of correlator.py. -/
def check_reconnaissance (events : List EventDict) : Option CorrelationRecord :=
  let recon_events := events.filter (fun e =>
    ["List", "Describe", "Get"].any (fun p => pyStartsWith (e.event_type.getD "") p))
  if recon_events.length < 20 then none
  else
    (pyGroupBy ipKey recon_events).findSome? (fun kv =>
      if 20 ≤ kv.2.length then
        some { rule := "reconnaissance"
               description := "Multiple discovery API calls"
               source_ip := some kv.1
               event_count := kv.2.length
               event_ids := (kv.2.take 20).map (fun e => e.event_id)
               event_types := some ((dedupFirst (kv.2.map (fun e => e.event_type))).take 10)
               severity := "medium"
               correlation_id := generate_correlation_id kv.2 "reconnaissance" }
      else none)

/-- `correlate_events` of correlator.py: run the four checks in order and
keep the non-`None` results. -/
def correlate_events (events : List EventDict) : List CorrelationRecord :=
  [check_brute_force events, check_privilege_escalation events,
   check_logging_tampering events, check_reconnaissance events].filterMap id

/-- `severity_scores.get(event.get("severity", "info"), 10)`. -/
def severityScore (s : String) : Int :=
  if s = "critical" then 80
  else if s = "high" then 60
  else if s = "medium" then 40
  else if s = "low" then 20
  else if s = "info" then 10
  else 10

/-- `calculate_risk_score` of correlator.py. -/
def calculate_risk_score (event : EventDict) (correlations : List CorrelationRecord) : Int :=
  let score := severityScore (event.severity.getD "info")
  let event_id := event.event_id.getD ""
  let score := correlations.foldl
    (fun s c => if c.event_ids.contains (some event_id) then s + 20 else s) score
  let score := if event.mitre_attack then score + 10 else score
  let score := if event.tags.contains "root-account" then score + 30 else score
  min score 100

end Correlator

/-! ## Alerting decision
(`services/event-processor/src/alerting/alerts.py`)

`ALERT_THRESHOLD_SEVERITY` and `ALERT_THRESHOLD_RISK_SCORE` come from the
environment (defaults `"high"` and 70) and are parameters here. -/

namespace Alerts

/-- `should_alert` of alerts.py. -/
def should_alert (alertThresholdSeverity : String) (alertThresholdRiskScore : Int)
    (event : Correlator.EventDict) (risk_score : Int) : Bool :=
  let severity := event.severity.getD "info"
  if severity = "critical" then true
  else if severity = "high" ∧
          ["high", "medium", "low", "info"].contains alertThresholdSeverity = true then true
  else if alertThresholdRiskScore ≤ risk_score then true
  else false

end Alerts

/-! ## Spec-side definitions

These two definitions are written from the specification text (not from the
source) and are compared against the embedded code by refinement theorems. -/

/-- Severity rule of spec section 4.2, first match wins (spec-side rendering
for comparison with `CloudTrail.determine_severity`). -/
def severity_rule_spec (event_name : String) (error_code : Option String)
    (user_type : Option String) : String :=
  let l := (pyLower event_name).data
  if user_type = some "Root" then "critical"
  else if matchesDotStarSeq ["delete".data, "trail".data] l ||
          matchesDotStarSeq ["stop".data, "logging".data] l ||
          matchesDotStarSeq ["disable".data] l ||
          matchesDotStarSeq ["root".data] l then "critical"
  else if error_code = some "AccessDenied" ∨ error_code = some "UnauthorizedAccess" ∨
          error_code = some "InvalidClientTokenId" then "high"
  else if ["ConsoleLogin", "CreateUser", "CreateAccessKey", "DeleteTrail", "StopLogging",
           "PutBucketPolicy", "PutBucketAcl", "AuthorizeSecurityGroupIngress",
           "CreateSecurityGroup", "ModifyInstanceAttribute", "RunInstances"].contains event_name
       then "high"
  else if pyStartsWith event_name "List" ∨ pyStartsWith event_name "Describe" ∨
          pyStartsWith event_name "Get" then "low"
  else "info"

/-- Risk-score formula of spec section 4.5 (spec-side rendering for
comparison with `Correlator.calculate_risk_score`): severity base, +20 per
correlation containing the event id, +10 for a technique, +30 for
root-account, clamped to the interval 0..100. -/
def risk_score_spec (event : Correlator.EventDict)
    (correlations : List Correlator.CorrelationRecord) : Int :=
  let base : Int :=
    if event.severity.getD "info" = "critical" then 80
    else if event.severity.getD "info" = "high" then 60
    else if event.severity.getD "info" = "medium" then 40
    else if event.severity.getD "info" = "low" then 20
    else 10
  let total := base +
    20 * (correlations.countP
            (fun c => c.event_ids.contains (some (event.event_id.getD "")))) +
    (if event.mitre_attack then 10 else 0) +
    (if event.tags.contains "root-account" then 30 else 0)
  max 0 (min 100 total)

/-! ## Concrete inputs for counterexamples and witnesses -/

namespace Inputs

open Correlator GuardDuty

/-- A DeleteTrail event at 10:00 with a network source IP. -/
def trailA : EventDict :=
  { event_id := some "evt-a"
    event_type := some "DeleteTrail"
    event_time := some "2024-01-01T10:00:00"
    network := some { source_ip := some (some "9.9.9.9") } }

/-- A StopLogging event at 10:05 with a network source IP. -/
def trailB : EventDict :=
  { event_id := some "evt-b"
    event_type := some "StopLogging"
    event_time := some "2024-01-01T10:05:00"
    network := some { source_ip := some (some "9.9.9.9") } }

/-- Successful ConsoleLogin by alice at 10:00. -/
def loginEarly : EventDict :=
  { event_id := some "L1"
    event_type := some "ConsoleLogin"
    event_time := some "2024-01-01T10:00:00"
    actor := some { user_name := some "alice" } }

/-- CreateAccessKey by alice at 10:05. -/
def keyMid : EventDict :=
  { event_id := some "I1"
    event_type := some "CreateAccessKey"
    event_time := some "2024-01-01T10:05:00"
    actor := some { user_name := some "alice" } }

/-- Successful ConsoleLogin by alice at 10:10. -/
def loginLate : EventDict :=
  { event_id := some "L2"
    event_type := some "ConsoleLogin"
    event_time := some "2024-01-01T10:10:00"
    actor := some { user_name := some "alice" } }

/-- CreateUser by alice at 10:15. -/
def userLate : EventDict :=
  { event_id := some "I2"
    event_type := some "CreateUser"
    event_time := some "2024-01-01T10:15:00"
    actor := some { user_name := some "alice" } }

/-- A single StopLogging event, used by witnesses. -/
def wTamper : EventDict :=
  { event_id := some "w-1"
    event_type := some "StopLogging"
    event_time := some "2024-02-02T09:00:00" }

/-- Successful ConsoleLogin by bob at 09:00, used by the R2 witness. -/
def wLogin : EventDict :=
  { event_id := some "W-L"
    event_type := some "ConsoleLogin"
    event_time := some "2024-02-02T09:00:00"
    actor := some { user_name := some "bob" } }

/-- CreateAccessKey by bob at 09:05, used by the R2 witness. -/
def wKey : EventDict :=
  { event_id := some "W-K"
    event_type := some "CreateAccessKey"
    event_time := some "2024-02-02T09:05:00"
    actor := some { user_name := some "bob" } }

/-- A GuardDuty action with both a NetworkConnectionAction and an
AwsApiCallAction, carrying distinct remote IPs. -/
def bothActions : GDAction :=
  { NetworkConnectionAction :=
      some { RemoteIpDetails := some { IpAddressV4 := some "1.1.1.1" }
             RemotePortDetails := some { Port := some 1234 }
             LocalPortDetails := some { Port := some 443 }
             Protocol := some "TCP" }
    AwsApiCallAction :=
      some { RemoteIpDetails := some { IpAddressV4 := some "2.2.2.2" }
             UserAgent := some "agent" } }

/-- The NetworkConnectionAction of `bothActions`. -/
def bothNc : NetworkConnectionAction :=
  { RemoteIpDetails := some { IpAddressV4 := some "1.1.1.1" }
    RemotePortDetails := some { Port := some 1234 }
    LocalPortDetails := some { Port := some 443 }
    Protocol := some "TCP" }

/-- The AwsApiCallAction of `bothActions`. -/
def bothApi : AwsApiCallAction :=
  { RemoteIpDetails := some { IpAddressV4 := some "2.2.2.2" }
    UserAgent := some "agent" }

/-- A raw CloudTrail record missing every optional field the claim names;
the remaining keys are arbitrary but concrete here. -/
def bareRecord : CloudTrail.RawCloudTrail := {}

end Inputs

/-! ## Helper lemmas: the string order and the stable sort -/

theorem strLeChars_refl (a : List Char) : strLeChars a a = true := by
  induction a with
  | nil => rfl
  | cons x xs ih => simp [strLeChars, ih]

theorem strLeChars_total (a b : List Char) : strLeChars a b = true ∨ strLeChars b a = true := by
  induction a generalizing b with
  | nil => left; rfl
  | cons x xs ih =>
    cases b with
    | nil => right; rfl
    | cons y ys =>
      by_cases hxy : x.toNat < y.toNat
      · left; simp [strLeChars, hxy]
      · by_cases hyx : y.toNat < x.toNat
        · right; simp [strLeChars, hyx]
        · rcases ih ys with h | h
          · left; simp [strLeChars, hxy, hyx, h]
          · right; simp [strLeChars, hxy, hyx, h]

theorem strLeChars_trans (a b c : List Char) (hab : strLeChars a b = true)
    (hbc : strLeChars b c = true) : strLeChars a c = true := by
  induction a generalizing b c with
  | nil => rfl
  | cons x xs ih =>
    cases b with
    | nil => simp [strLeChars] at hab
    | cons y ys =>
      cases c with
      | nil => simp [strLeChars] at hbc
      | cons z zs =>
        by_cases hxy : x.toNat < y.toNat
        · by_cases hyz : y.toNat < z.toNat
          · have hxz : x.toNat < z.toNat := Nat.lt_trans hxy hyz
            simp [strLeChars, hxz]
          · by_cases hzy : z.toNat < y.toNat
            · simp [strLeChars, hyz, hzy] at hbc
            · have hxz : x.toNat < z.toNat := by omega
              simp [strLeChars, hxz]
        · by_cases hyx : y.toNat < x.toNat
          · simp [strLeChars, hxy, hyx] at hab
          · by_cases hyz : y.toNat < z.toNat
            · have hxz : x.toNat < z.toNat := by omega
              simp [strLeChars, hxz]
            · by_cases hzy : z.toNat < y.toNat
              · simp [strLeChars, hyz, hzy] at hbc
              · have hxz1 : ¬ x.toNat < z.toNat := by omega
                have hzx : ¬ z.toNat < x.toNat := by omega
                have hab2 : strLeChars xs ys = true := by
                  simpa [strLeChars, hxy, hyx] using hab
                have hbc2 : strLeChars ys zs = true := by
                  simpa [strLeChars, hyz, hzy] using hbc
                simp [strLeChars, hxz1, hzx, ih ys zs hab2 hbc2]

theorem timeLe_refl (a : Correlator.EventDict) : Correlator.timeLe a a = true :=
  strLeChars_refl _

theorem timeLe_total (a b : Correlator.EventDict) :
    Correlator.timeLe a b = true ∨ Correlator.timeLe b a = true :=
  strLeChars_total _ _

theorem timeLe_trans {a b c : Correlator.EventDict} (hab : Correlator.timeLe a b = true)
    (hbc : Correlator.timeLe b c = true) : Correlator.timeLe a c = true :=
  strLeChars_trans _ _ _ hab hbc

theorem pyInsert_perm {α : Type} (le : α → α → Bool) (x : α) (l : List α) :
    (pyInsert le x l).Perm (x :: l) := by
  induction l with
  | nil => exact List.Perm.refl _
  | cons y ys ih =>
    simp only [pyInsert]
    by_cases h : le x y = true
    · simp [h]
    · simp only [h, if_false]
      exact ((ih.cons y).trans (List.Perm.swap x y ys))

theorem pySorted_perm {α : Type} (le : α → α → Bool) (l : List α) :
    (pySorted le l).Perm l := by
  induction l with
  | nil => exact List.Perm.refl _
  | cons x xs ih => exact (pyInsert_perm le x (pySorted le xs)).trans (ih.cons x)

theorem mem_pySorted {α : Type} (le : α → α → Bool) (l : List α) (x : α) :
    x ∈ pySorted le l ↔ x ∈ l :=
  (pySorted_perm le l).mem_iff

theorem pyInsert_pairwise {α : Type} (le : α → α → Bool)
    (htrans : ∀ a b c, le a b = true → le b c = true → le a c = true)
    (htotal : ∀ a b, le a b = true ∨ le b a = true)
    (x : α) (l : List α) (hl : List.Pairwise (fun a b => le a b = true) l) :
    List.Pairwise (fun a b => le a b = true) (pyInsert le x l) := by
  induction l with
  | nil => simp [pyInsert]
  | cons y ys ih =>
    rcases hl with - | ⟨hy, hys⟩
    simp only [pyInsert]
    by_cases h : le x y = true
    · rw [if_pos h]
      refine List.Pairwise.cons ?_ (List.Pairwise.cons hy hys)
      intro z hz
      rw [List.mem_cons] at hz
      rcases hz with rfl | hz
      · exact h
      · exact htrans x y z h (hy _ hz)
    · rw [if_neg h]
      refine List.Pairwise.cons ?_ (ih hys)
      intro z hz
      have hmem := (pyInsert_perm le x ys).mem_iff.mp hz
      rw [List.mem_cons] at hmem
      rcases hmem with rfl | hmem
      · rcases htotal z y with hzy | hyz
        · exact absurd hzy h
        · exact hyz
      · exact hy _ hmem

theorem pySorted_pairwise {α : Type} (le : α → α → Bool)
    (htrans : ∀ a b c, le a b = true → le b c = true → le a c = true)
    (htotal : ∀ a b, le a b = true ∨ le b a = true)
    (l : List α) : List.Pairwise (fun a b => le a b = true) (pySorted le l) := by
  induction l with
  | nil => simp [pySorted]
  | cons x xs ih => exact pyInsert_pairwise le htrans htotal x _ ih

/-! ## Helper lemmas: Python dict-of-lists grouping -/

namespace Correlator

theorem findBucket_pyUpsert {κ : Type} [DecidableEq κ] (ke : κ) (e : EventDict)
    (acc : List (κ × List EventDict)) (k : κ) :
    findBucket k (pyUpsert ke e acc) =
      findBucket k acc ++ (if ke = k then [e] else []) := by
  induction acc with
  | nil =>
    simp only [pyUpsert, findBucket]
    by_cases h : ke = k
    · simp [h]
    · simp [h]
  | cons kv rest ih =>
    obtain ⟨k1, es⟩ := kv
    simp only [pyUpsert]
    by_cases h1 : k1 = ke
    · rw [if_pos h1]
      simp only [findBucket]
      by_cases h2 : k1 = k
      · rw [if_pos h2, if_pos h2, if_pos (h1 ▸ h2)]
      · rw [if_neg h2, if_neg h2, if_neg (fun hek => h2 (h1.trans hek)), List.append_nil]
    · rw [if_neg h1]
      simp only [findBucket]
      by_cases h2 : k1 = k
      · rw [if_pos h2, if_pos h2]
        rw [if_neg (fun hek => h1 (by rw [hek, h2])), List.append_nil]
      · rw [if_neg h2, if_neg h2, ih]

theorem pyUpsert_key_mem {κ : Type} [DecidableEq κ] (ke : κ) (e : EventDict)
    (acc : List (κ × List EventDict)) :
    ∀ kv ∈ pyUpsert ke e acc, kv.1 = ke ∨ kv.1 ∈ acc.map Prod.fst := by
  induction acc with
  | nil =>
    intro kv hkv
    simp only [pyUpsert, List.mem_singleton] at hkv
    subst hkv
    exact Or.inl rfl
  | cons kv0 rest ih =>
    obtain ⟨k1, es⟩ := kv0
    intro kv hkv
    simp only [pyUpsert] at hkv
    by_cases h1 : k1 = ke
    · rw [if_pos h1] at hkv
      rw [List.mem_cons] at hkv
      rcases hkv with rfl | hkv
      · exact Or.inl h1
      · exact Or.inr (List.mem_map.mpr ⟨kv, List.mem_cons_of_mem _ hkv, rfl⟩)
    · rw [if_neg h1] at hkv
      rw [List.mem_cons] at hkv
      rcases hkv with rfl | hkv
      · simp
      · rcases ih kv hkv with h | h
        · exact Or.inl h
        · simp only [List.map_cons, List.mem_cons]
          exact Or.inr (Or.inr h)

theorem pyUpsert_keys_distinct {κ : Type} [DecidableEq κ] (ke : κ) (e : EventDict)
    (acc : List (κ × List EventDict))
    (h : List.Pairwise (fun a b => a.1 ≠ b.1) acc) :
    List.Pairwise (fun a b => a.1 ≠ b.1) (pyUpsert ke e acc) := by
  induction acc with
  | nil => simp [pyUpsert]
  | cons kv0 rest ih =>
    obtain ⟨k1, es⟩ := kv0
    rcases h with - | ⟨hk1, hrest⟩
    simp only [pyUpsert]
    by_cases h1 : k1 = ke
    · rw [if_pos h1]
      exact List.Pairwise.cons hk1 hrest
    · rw [if_neg h1]
      refine List.Pairwise.cons ?_ (ih hrest)
      intro kv hkv
      rcases pyUpsert_key_mem ke e rest kv hkv with hk | hk
      · intro hcontra
        exact h1 (hcontra.trans hk)
      · rcases List.mem_map.mp hk with ⟨kv2, hkv2, hfst⟩
        intro hcontra
        exact (hk1 kv2 hkv2) (hfst ▸ hcontra)

/-- The grouping invariant: after processing `done`, each key's bucket is
the filter of `done` by that key. -/
theorem pyGroupBy_invariant {κ : Type} [DecidableEq κ] (key : EventDict → κ) :
    ∀ (rest : List EventDict) (acc : List (κ × List EventDict)) (done : List EventDict),
    (∀ k, done.filter (fun e => decide (key e = k)) = findBucket k acc) →
    List.Pairwise (fun a b => a.1 ≠ b.1) acc →
    (∀ k, (done ++ rest).filter (fun e => decide (key e = k)) =
        findBucket k (rest.foldl (fun a e => pyUpsert (key e) e a) acc)) ∧
    List.Pairwise (fun a b => a.1 ≠ b.1)
      (rest.foldl (fun a e => pyUpsert (key e) e a) acc) := by
  intro rest
  induction rest with
  | nil =>
    intro acc done hfil hdis
    simpa using ⟨hfil, hdis⟩
  | cons e rest ih =>
    intro acc done hfil hdis
    have hstep : ∀ k, (done ++ [e]).filter (fun x => decide (key x = k)) =
        findBucket k (pyUpsert (key e) e acc) := by
      intro k
      rw [findBucket_pyUpsert, ← hfil k, List.filter_append]
      congr 1
      simp only [List.filter]
      by_cases h : key e = k
      · simp [h]
      · simp [h]
    have := ih (pyUpsert (key e) e acc) (done ++ [e]) hstep
      (pyUpsert_keys_distinct (key e) e acc hdis)
    simpa using this

/-- In an association list with distinct keys, `findBucket` at a member's
key returns that member's bucket. -/
theorem findBucket_of_mem {κ : Type} [DecidableEq κ] :
    ∀ (acc : List (κ × List EventDict)), List.Pairwise (fun a b => a.1 ≠ b.1) acc →
    ∀ kv ∈ acc, findBucket kv.1 acc = kv.2 := by
  intro acc
  induction acc with
  | nil => intro _ kv hkv; cases hkv
  | cons kv0 rest ih =>
    intro hdis kv hkv
    obtain ⟨k1, es⟩ := kv0
    rcases hdis with - | ⟨hk1, hrest⟩
    rw [List.mem_cons] at hkv
    rcases hkv with rfl | hkv
    · simp [findBucket]
    · have hne : k1 ≠ kv.1 := hk1 kv hkv
      simp only [findBucket]
      rw [if_neg hne]
      exact ih hrest kv hkv

/-- Main grouping lemma: every bucket produced by `pyGroupBy` is the filter
of the input by the bucket's key. -/
theorem pyGroupBy_bucket {κ : Type} [DecidableEq κ] (key : EventDict → κ)
    (events : List EventDict) :
    ∀ kv ∈ pyGroupBy key events, kv.2 = events.filter (fun e => decide (key e = kv.1)) := by
  have hmain := pyGroupBy_invariant key events [] [] (by intro k; rfl) List.Pairwise.nil
  intro kv hkv
  have hfil := hmain.1 kv.1
  simp only [List.nil_append] at hfil
  have hfind : findBucket kv.1 (pyGroupBy key events) = kv.2 :=
    findBucket_of_mem _ hmain.2 kv hkv
  rw [hfil]
  exact hfind.symm

/-- Bucket members belong to the grouped list and carry the bucket's key. -/
theorem pyGroupBy_mem {κ : Type} [DecidableEq κ] (key : EventDict → κ)
    (events : List EventDict) {kv : κ × List EventDict} (hkv : kv ∈ pyGroupBy key events)
    {e : EventDict} (he : e ∈ kv.2) : e ∈ events ∧ key e = kv.1 := by
  rw [pyGroupBy_bucket key events kv hkv] at he
  have := List.mem_filter.mp he
  exact ⟨this.1, of_decide_eq_true this.2⟩

/-! ## Helper lemmas: the privilege-escalation scan -/

/-- A successful ConsoleLogin, as tested by the scan loop. -/
def succLogin (e : EventDict) : Prop :=
  e.event_type.getD "" = "ConsoleLogin" ∧ e.tags.contains "error" = false

/-- An IAM follow-up type, as tested by the scan loop. -/
def iamFollow (e : EventDict) : Prop :=
  ["CreateAccessKey", "CreateUser", "AttachUserPolicy", "AttachRolePolicy"].contains
    (e.event_type.getD "") = true

/-- Invariant of the scan loop: scanning a sorted list whose members satisfy
`M` keeps a successful login in the first component and accumulates, in
chronological order, IAM follow-ups each preceded by some successful login. -/
theorem privFoldInv (M : EventDict → Prop) :
    ∀ (L : List EventDict) (st : Option EventDict × List EventDict),
    (∀ x ∈ L, M x) →
    List.Pairwise (fun a b => timeLe a b = true) L →
    (∀ l, st.1 = some l → M l ∧ succLogin l ∧ ∀ x ∈ L, timeLe l x = true) →
    (∀ f ∈ st.2, (M f ∧ iamFollow f ∧
        ∃ l2, M l2 ∧ succLogin l2 ∧ timeLe l2 f = true) ∧ ∀ x ∈ L, timeLe f x = true) →
    List.Chain' (fun a b => timeLe a b = true) st.2 →
    (∀ l, (L.foldl privEscStep st).1 = some l → M l ∧ succLogin l) ∧
    (∀ f ∈ (L.foldl privEscStep st).2, M f ∧ iamFollow f ∧
        ∃ l2, M l2 ∧ succLogin l2 ∧ timeLe l2 f = true) ∧
    List.Chain' (fun a b => timeLe a b = true) (L.foldl privEscStep st).2 := by
  intro L
  induction L with
  | nil =>
    intro st hM hpw hlog hiam hch
    refine ⟨fun l hl => ⟨(hlog l hl).1, (hlog l hl).2.1⟩, fun f hf => (hiam f hf).1, hch⟩
  | cons e L ih =>
    intro st hM hpw hlog hiam hch
    have hpw1 := (List.pairwise_cons.mp hpw).1
    have hpw2 := (List.pairwise_cons.mp hpw).2
    have hMe : M e := hM e (List.mem_cons_self e L)
    have hML : ∀ x ∈ L, M x := fun x hx => hM x (List.mem_cons_of_mem e hx)
    simp only [List.foldl_cons]
    by_cases hc1 : e.event_type.getD "" = "ConsoleLogin" ∧ ¬ (e.tags.contains "error" = true)
    · have hstep : privEscStep st e = (some e, st.2) := by
        simp only [privEscStep]
        rw [if_pos hc1]
      rw [hstep]
      refine ih (some e, st.2) hML hpw2 ?_ ?_ hch
      · intro l hl
        injection hl with hl
        subst hl
        exact ⟨hMe, ⟨hc1.1, by simpa using hc1.2⟩, hpw1⟩
      · intro f hf
        exact ⟨(hiam f hf).1, fun x hx => (hiam f hf).2 x (List.mem_cons_of_mem e hx)⟩
    · by_cases hc2 : st.1.isSome = true ∧
          (["CreateAccessKey", "CreateUser", "AttachUserPolicy", "AttachRolePolicy"].contains
            (e.event_type.getD "") = true)
      · have hstep : privEscStep st e = (st.1, st.2 ++ [e]) := by
          simp only [privEscStep]
          rw [if_neg hc1, if_pos hc2]
        rw [hstep]
        obtain ⟨l0, hl0⟩ := Option.isSome_iff_exists.mp hc2.1
        have hl0p := hlog l0 hl0
        refine ih (st.1, st.2 ++ [e]) hML hpw2 ?_ ?_ ?_
        · intro l hl
          have := hlog l hl
          exact ⟨this.1, this.2.1, fun x hx => this.2.2 x (List.mem_cons_of_mem e hx)⟩
        · intro f hf
          rw [List.mem_append] at hf
          rcases hf with hf | hf
          · exact ⟨(hiam f hf).1, fun x hx => (hiam f hf).2 x (List.mem_cons_of_mem e hx)⟩
          · rw [List.mem_singleton] at hf
            subst hf
            refine ⟨⟨hMe, hc2.2, l0, hl0p.1, hl0p.2.1,
              hl0p.2.2 f (List.mem_cons_self f L)⟩, hpw1⟩
        · refine List.Chain'.append hch (List.chain'_singleton e) ?_
          intro a ha b hb
          rw [List.head?_cons, Option.mem_def] at hb
          injection hb with hb
          subst hb
          have haMem : a ∈ st.2 := List.mem_of_mem_getLast? ha
          exact (hiam a haMem).2 e (List.mem_cons_self e L)
      · have hstep : privEscStep st e = st := by
          simp only [privEscStep]
          rw [if_neg hc1, if_neg hc2]
        rw [hstep]
        refine ih st hML hpw2 ?_ ?_ hch
        · intro l hl
          have := hlog l hl
          exact ⟨this.1, this.2.1, fun x hx => this.2.2 x (List.mem_cons_of_mem e hx)⟩
        · intro f hf
          exact ⟨(hiam f hf).1, fun x hx => (hiam f hf).2 x (List.mem_cons_of_mem e hx)⟩

/-- The login tracked by the scan is either the initial one or a member of
the scanned list. -/
theorem privFold_login_cases :
    ∀ (L : List EventDict) (st : Option EventDict × List EventDict) (l : EventDict),
    (L.foldl privEscStep st).1 = some l → st.1 = some l ∨ l ∈ L := by
  intro L
  induction L with
  | nil => intro st l h; exact Or.inl h
  | cons e L ih =>
    intro st l h
    simp only [List.foldl_cons] at h
    rcases ih (privEscStep st e) l h with hcase | hcase
    · simp only [privEscStep] at hcase
      by_cases hc1 : e.event_type.getD "" = "ConsoleLogin" ∧ ¬ (e.tags.contains "error" = true)
      · rw [if_pos hc1] at hcase
        injection hcase with hcase
        exact Or.inr (hcase ▸ List.mem_cons_self e L)
      · rw [if_neg hc1] at hcase
        by_cases hc2 : st.1.isSome = true ∧
            (["CreateAccessKey", "CreateUser", "AttachUserPolicy", "AttachRolePolicy"].contains
              (e.event_type.getD "") = true)
        · rw [if_pos hc2] at hcase
          exact Or.inl hcase
        · rw [if_neg hc2] at hcase
          exact Or.inl hcase
    · exact Or.inr (List.mem_cons_of_mem e hcase)

/-- The login tracked at the end of a sorted scan is at least as late as
every successful login in the scanned list. -/
theorem privFold_login_max :
    ∀ (L : List EventDict) (st : Option EventDict × List EventDict) (l : EventDict),
    List.Pairwise (fun a b => timeLe a b = true) L →
    (L.foldl privEscStep st).1 = some l →
    ∀ x ∈ L, succLogin x → timeLe x l = true := by
  intro L
  induction L with
  | nil => intro st l _ _ x hx; cases hx
  | cons e L ih =>
    intro st l hpw h x hx hsucc
    have hpw1 := (List.pairwise_cons.mp hpw).1
    have hpw2 := (List.pairwise_cons.mp hpw).2
    simp only [List.foldl_cons] at h
    rw [List.mem_cons] at hx
    rcases hx with rfl | hx
    · have hc1 : x.event_type.getD "" = "ConsoleLogin" ∧ ¬ (x.tags.contains "error" = true) :=
        ⟨hsucc.1, fun hcontra => Bool.false_ne_true (hsucc.2 ▸ hcontra)⟩
      have hstep : privEscStep st x = (some x, st.2) := by
        simp only [privEscStep]
        rw [if_pos hc1]
      rw [hstep] at h
      rcases privFold_login_cases L (some x, st.2) l h with hcase | hcase
      · injection hcase with hcase
        subst hcase
        exact timeLe_refl x
      · exact hpw1 l hcase
    · exact ih (privEscStep st e) l hpw2 h x hx hsucc

/-- Full characterization of a record emitted by `check_privilege_escalation`:
its members come from one actor bucket; the head is a successful login that
is at least as late as every successful login of that actor; the follow-ups
are IAM events in chronological order, each preceded by some successful
login of the same actor. -/
theorem check_privilege_escalation_spec (events : List EventDict) (r : CorrelationRecord)
    (h : check_privilege_escalation events = some r) :
    ∃ aid login iams,
      r = { rule := "privilege_escalation"
            description := "IAM modifications following authentication"
            actor := some aid
            sequence := some ((login :: iams).map (fun e => e.event_type))
            event_count := (login :: iams).length
            event_ids := (login :: iams).map (fun e => e.event_id)
            severity := "critical"
            correlation_id := generate_correlation_id (login :: iams) "privilege_escalation" } ∧
      login ∈ events ∧ actorKey login = aid ∧ succLogin login ∧
      iams ≠ [] ∧
      (∀ f ∈ iams, f ∈ events ∧ actorKey f = aid ∧ iamFollow f ∧
        ∃ l2, l2 ∈ events ∧ actorKey l2 = aid ∧ succLogin l2 ∧ timeLe l2 f = true) ∧
      List.Chain' (fun a b => timeLe a b = true) iams ∧
      (∀ x ∈ events, actorKey x = aid → succLogin x → timeLe x login = true) := by
  rw [check_privilege_escalation] at h
  obtain ⟨kv, hkvmem, hg⟩ := List.exists_of_findSome?_eq_some h
  dsimp only at hg
  have hML : ∀ x ∈ pySorted timeLe kv.2, x ∈ events ∧ actorKey x = kv.1 := by
    intro x hx
    exact pyGroupBy_mem actorKey events hkvmem ((mem_pySorted timeLe kv.2 x).mp hx)
  have hpw : List.Pairwise (fun a b => timeLe a b = true) (pySorted timeLe kv.2) :=
    pySorted_pairwise timeLe (fun a b c => timeLe_trans) timeLe_total kv.2
  have hinv := privFoldInv (fun x => x ∈ events ∧ actorKey x = kv.1)
    (pySorted timeLe kv.2) (none, []) hML hpw
    (by intro l hl; cases hl)
    (by intro f hf; cases hf)
    List.chain'_nil
  revert hg
  split
  next loginEv iamHead iamTail heq1 heq2 =>
    intro hg
    injection hg with hg
    refine ⟨kv.1, loginEv, iamHead :: iamTail, hg.symm, ?_⟩
    have hlog := hinv.1 loginEv heq1
    have hiam := hinv.2.1
    have hch := hinv.2.2
    rw [heq2] at hiam hch
    refine ⟨hlog.1.1, hlog.1.2, hlog.2, List.cons_ne_nil _ _, ?_, hch, ?_⟩
    · intro f hf
      obtain ⟨⟨hfev, hfkey⟩, hfiam, l2, ⟨hl2ev, hl2key⟩, hl2succ, hl2le⟩ := hiam f hf
      exact ⟨hfev, hfkey, hfiam, l2, hl2ev, hl2key, hl2succ, hl2le⟩
    · intro x hx hkey hsucc
      have hxL : x ∈ pySorted timeLe kv.2 := by
        rw [mem_pySorted, pyGroupBy_bucket actorKey events kv hkvmem]
        exact List.mem_filter.mpr ⟨hx, decide_eq_true hkey⟩
      exact privFold_login_max (pySorted timeLe kv.2) (none, []) loginEv hpw heq1 x hxL hsucc
  next =>
    intro hg
    cases hg

/-- The id emitted for a nonempty member list hashes the first member's
`event_type` and top-level `source_ip`. -/
theorem generate_correlation_id_cons (e : EventDict) (rest : List EventDict)
    (rule_name : String) :
    generate_correlation_id (e :: rest) rule_name =
      Sha256.sha256Hex16
        (rule_name ++ ":" ++ e.event_type.getD "" ++ ":" ++ e.source_ip.getD "") := rfl

/-- Characterization of a record emitted by `check_brute_force`: its member
list is a nonempty subsequence of the input, in input order. -/
theorem check_brute_force_spec (events : List EventDict) (r : CorrelationRecord)
    (h : check_brute_force events = some r) :
    ∃ f fs, r.rule = "brute_force" ∧ f ∈ events ∧
      (f :: fs).Sublist events ∧
      r.event_ids = (f :: fs).map (fun e => e.event_id) ∧
      r.correlation_id = generate_correlation_id (f :: fs) "brute_force" := by
  rw [check_brute_force] at h
  split at h
  · cases h
  · obtain ⟨kv, hkvmem, hg⟩ := List.exists_of_findSome?_eq_some h
    dsimp only at hg
    split at hg
    · injection hg with hg
      rcases hfe : kv.2.filter (fun e =>
          ["accessdenied", "unauthorizedaccess", "error"].any (fun tag => e.tags.contains tag))
        with - | ⟨f, fs⟩
      · rename_i hlen
        rw [hfe] at hlen
        simp at hlen
      · have hsub : (f :: fs).Sublist events := by
          rw [← hfe]
          have h1 : (kv.2.filter (fun e =>
              ["accessdenied", "unauthorizedaccess", "error"].any
                (fun tag => e.tags.contains tag))).Sublist kv.2 := List.filter_sublist _
          have h2 : kv.2.Sublist (events.filter (fun e => optIn e.event_type ["ConsoleLogin"])) := by
            rw [pyGroupBy_bucket ipKey _ kv hkvmem]
            exact List.filter_sublist _
          exact (h1.trans h2).trans (List.filter_sublist _)
        have hfmem : f ∈ events := hsub.subset (List.mem_cons_self f fs)
        refine ⟨f, fs, ?_, hfmem, hsub, ?_, ?_⟩
        · rw [← hg]
        · rw [← hg]
          simp only [hfe]
        · rw [← hg]
          simp only [hfe]
    · cases hg

/-- Characterization of a record emitted by `check_logging_tampering`: its
member list is the filter of the input, in input order. -/
theorem check_logging_tampering_spec (events : List EventDict) (r : CorrelationRecord)
    (h : check_logging_tampering events = some r) :
    ∃ t ts, r.rule = "logging_tampering" ∧ t ∈ events ∧
      (t :: ts).Sublist events ∧
      r.event_ids = (t :: ts).map (fun e => e.event_id) ∧
      r.correlation_id = generate_correlation_id (t :: ts) "logging_tampering" := by
  rw [check_logging_tampering] at h
  split at h
  next heq => cases h
  next t ts heq =>
    injection h with h
    have hsub : (t :: ts).Sublist events := heq ▸ List.filter_sublist _
    refine ⟨t, ts, ?_, hsub.subset (List.mem_cons_self t ts), hsub, ?_, ?_⟩
    · rw [← h]
    · rw [← h]
      simp only [heq]
    · rw [← h]
      simp only [heq]

/-- Characterization of a record emitted by `check_reconnaissance`: its
member list is a nonempty subsequence of the input, in input order, with the
ids capped at 20. -/
theorem check_reconnaissance_spec (events : List EventDict) (r : CorrelationRecord)
    (h : check_reconnaissance events = some r) :
    ∃ c cs, r.rule = "reconnaissance" ∧ c ∈ events ∧
      (c :: cs).Sublist events ∧
      r.event_ids = ((c :: cs).take 20).map (fun e => e.event_id) ∧
      r.correlation_id = generate_correlation_id (c :: cs) "reconnaissance" := by
  rw [check_reconnaissance] at h
  split at h
  · cases h
  · obtain ⟨kv, hkvmem, hg⟩ := List.exists_of_findSome?_eq_some h
    split at hg
    · injection hg with hg
      rcases hkv2 : kv.2 with - | ⟨c, cs⟩
      · rename_i hlen
        rw [hkv2] at hlen
        simp at hlen
      · have hsub : (c :: cs).Sublist events := by
          rw [← hkv2]
          have h2 : kv.2.Sublist (events.filter (fun e =>
              ["List", "Describe", "Get"].any
                (fun p => pyStartsWith (e.event_type.getD "") p))) := by
            rw [pyGroupBy_bucket ipKey _ kv hkvmem]
            exact List.filter_sublist _
          exact h2.trans (List.filter_sublist _)
        refine ⟨c, cs, ?_, hsub.subset (List.mem_cons_self c cs), hsub, ?_, ?_⟩
        · rw [← hg]
        · rw [← hg]
          simp only [hkv2]
        · rw [← hg]
          simp only [hkv2]
    · cases hg

/-! ## Helper lemmas: risk-score arithmetic -/

theorem foldl_score_countP (p : CorrelationRecord → Bool) :
    ∀ (cs : List CorrelationRecord) (acc : Int),
    cs.foldl (fun s c => if p c then s + 20 else s) acc = acc + 20 * cs.countP p := by
  intro cs
  induction cs with
  | nil => intro acc; simp
  | cons c cs ih =>
    intro acc
    simp only [List.foldl_cons, List.countP_cons, ih]
    by_cases h : p c = true
    · rw [if_pos h, if_pos h]
      push_cast
      ring
    · rw [if_neg h, if_neg h]
      simp

theorem severityScore_ge_ten (s : String) : 10 ≤ severityScore s := by
  rw [severityScore]
  split_ifs <;> omega

end Correlator

/-! ## Claim theorems -/

open Correlator in
/-- C5: the derived severity of a cloud-audit record is the first matching
rule in priority order: Root gives CRITICAL; a critical name pattern
(`.*Delete.*Trail.*`, `.*Stop.*Logging.*`, `.*Disable.*`, `.*Root.*`,
case-insensitively) gives CRITICAL; an error code in
{AccessDenied, UnauthorizedAccess, InvalidClientTokenId} gives HIGH; a name
in the eleven-element high-severity set gives HIGH; a name beginning with
List, Describe or Get gives LOW; otherwise INFO. -/
theorem C5_severity_priority (event_name : String) (error_code : Option String)
    (user_type : Option String) :
    CloudTrail.determine_severity event_name error_code user_type =
      severity_rule_spec event_name error_code user_type := by
  cases error_code with
  | none =>
    by_cases h5 : pyStartsWith event_name "List" = true <;>
      by_cases h6 : pyStartsWith event_name "Describe" = true <;>
      by_cases h7 : pyStartsWith event_name "Get" = true <;>
      simp [CloudTrail.determine_severity, severity_rule_spec,
        CloudTrail.matchesCriticalPattern, CloudTrail.HIGH_SEVERITY_EVENTS, optIn, h5, h6, h7]
  | some s =>
    by_cases h5 : pyStartsWith event_name "List" = true <;>
      by_cases h6 : pyStartsWith event_name "Describe" = true <;>
      by_cases h7 : pyStartsWith event_name "Get" = true <;>
      simp [CloudTrail.determine_severity, severity_rule_spec,
        CloudTrail.matchesCriticalPattern, CloudTrail.HIGH_SEVERITY_EVENTS, optIn, h5, h6, h7]

open Correlator in
/-- C6: the risk score is the severity base (critical 80, high 60, medium 40,
low 20, info 10), plus 20 for each correlation whose event_ids contains the
event's id, plus 10 for a technique mapping, plus 30 for a root-account tag,
clamped to the interval 0..100. -/
theorem C6_risk_score_formula (event : EventDict) (correlations : List CorrelationRecord) :
    calculate_risk_score event correlations = risk_score_spec event correlations := by
  rw [calculate_risk_score, risk_score_spec]
  rw [foldl_score_countP]
  have hbase := severityScore_ge_ten (event.severity.getD "info")
  have hbase2 : severityScore (event.severity.getD "info") =
      (if event.severity.getD "info" = "critical" then (80 : Int)
       else if event.severity.getD "info" = "high" then 60
       else if event.severity.getD "info" = "medium" then 40
       else if event.severity.getD "info" = "low" then 20
       else 10) := by
    rw [severityScore]
    split_ifs <;> rfl
  rw [← hbase2]
  have hcnt : (0 : Int) ≤ (correlations.countP
      (fun c => c.event_ids.contains (some (event.event_id.getD "")))) :=
    Int.natCast_nonneg _
  by_cases hm : event.mitre_attack <;> by_cases hr : event.tags.contains "root-account" = true <;>
    simp only [hm, hr, if_true, if_false, Bool.false_eq_true] <;>
    rw [min_def, min_def, max_def] <;> split_ifs <;> omega

open Correlator in
/-- C9: for every event dictionary and every list of correlation records,
the risk score lies in the interval 10..100: every severity value, including
a missing or unrecognized one, contributes a base of at least 10, every
other term is non-negative, and the result is capped at 100. -/
theorem C9_risk_score_bounds (event : EventDict) (correlations : List CorrelationRecord) :
    10 ≤ calculate_risk_score event correlations ∧
      calculate_risk_score event correlations ≤ 100 := by
  rw [calculate_risk_score, foldl_score_countP]
  have hbase := severityScore_ge_ten (event.severity.getD "info")
  have hcnt : (0 : Int) ≤ (correlations.countP
      (fun c => c.event_ids.contains (some (event.event_id.getD "")))) :=
    Int.natCast_nonneg _
  by_cases hm : event.mitre_attack <;> by_cases hr : event.tags.contains "root-account" = true <;>
    simp only [hm, hr, if_true, if_false, Bool.false_eq_true] <;>
    rw [min_def] <;> split_ifs <;> omega

open Correlator in
/-- C8: under the default configuration (alert threshold severity "high",
risk-score threshold 70), should_alert returns true iff the severity is
critical, or the severity is high, or the risk score is at least 70. -/
theorem C8_should_alert_default (event : EventDict) (risk_score : Int) :
    Alerts.should_alert "high" 70 event risk_score = true ↔
      (event.severity.getD "info" = "critical" ∨ event.severity.getD "info" = "high" ∨
        70 ≤ risk_score) := by
  rw [Alerts.should_alert]
  split_ifs with h1 h2 h3 <;> simp_all

/-- C2 (counterexample): a record with eventSource s3.amazonaws.com and
eventName PutBucketPolicy is categorized identity_management, not
data_access: the Python operator precedence lets the final
"Policy" in event_name test fire on its own. -/
theorem C2_counterexample :
    CloudTrail.categorize_event "PutBucketPolicy" "s3.amazonaws.com" = "identity_management" ∧
    ¬ (CloudTrail.categorize_event "PutBucketPolicy" "s3.amazonaws.com" = "data_access") := by
  exact ⟨by decide, by decide⟩

/-- C2 (amended): identity_management is assigned exactly when the
authentication rule did not match and either eventSource is
iam.amazonaws.com, or eventName starts with one of Create, Delete, Update,
Attach, Detach, Put and contains "User", or eventName contains "Role", or
eventName contains "Policy" (Python precedence: `A or (B and C) or D or E`). -/
theorem C2_amended (event_name event_source : String) :
    CloudTrail.categorize_event event_name event_source = "identity_management" ↔
      (¬ (["ConsoleLogin", "GetFederationToken", "GetSessionToken", "AssumeRole",
           "AssumeRoleWithSAML", "AssumeRoleWithWebIdentity"].contains event_name = true) ∧
       (event_source = "iam.amazonaws.com" ∨
        (pyStartsAny event_name ["Create", "Delete", "Update", "Attach", "Detach", "Put"] = true ∧
         pyContains event_name "User" = true) ∨
        pyContains event_name "Role" = true ∨
        pyContains event_name "Policy" = true)) := by
  rw [CloudTrail.categorize_event]
  split_ifs with h1 h2 <;> simp_all
  tauto

open GuardDuty in
/-- C7 (counterexample): in a finding carrying both a
NetworkConnectionAction (remote IP 1.1.1.1) and an AwsApiCallAction
(remote IP 2.2.2.2), the normalized source_ip is the AwsApiCallAction one,
not the NetworkConnectionAction one. -/
theorem C7_counterexample :
    (extract_network Inputs.bothActions).map (fun n => n.source_ip) = some (some "2.2.2.2") ∧
    ¬ ((extract_network Inputs.bothActions).map (fun n => n.source_ip) = some (some "1.1.1.1")) := by
  exact ⟨by decide, by decide⟩

open GuardDuty in
/-- C7 (amended): when both actions are present, the ports and protocol come
from the NetworkConnectionAction, but source_ip and user_agent are
overwritten from the AwsApiCallAction (its RemoteIpDetails.IpAddressV4 and
UserAgent); only when the AwsApiCallAction is absent do the
NetworkConnectionAction's remote IP fields survive. -/
theorem C7_amended (action : GDAction) (nc : NetworkConnectionAction)
    (api : AwsApiCallAction) (hnc : action.NetworkConnectionAction = some nc)
    (hapi : action.AwsApiCallAction = some api) :
    extract_network action = some
      { source_ip := (api.RemoteIpDetails.getD {}).IpAddressV4
        source_port := (nc.RemotePortDetails.getD {}).Port
        destination_ip := none
        destination_port := (nc.LocalPortDetails.getD {}).Port
        protocol := nc.Protocol
        user_agent := api.UserAgent } := by
  rw [extract_network, hnc, hapi]
  exact rfl

open GuardDuty in
/-- C7 (witness): the amended theorem applied to the concrete finding with
both actions present. -/
theorem C7_witness :
    extract_network Inputs.bothActions = some
      { source_ip := (Inputs.bothApi.RemoteIpDetails.getD {}).IpAddressV4
        source_port := (Inputs.bothNc.RemotePortDetails.getD {}).Port
        destination_ip := none
        destination_port := (Inputs.bothNc.LocalPortDetails.getD {}).Port
        protocol := Inputs.bothNc.Protocol
        user_agent := Inputs.bothApi.UserAgent } :=
  C7_amended Inputs.bothActions Inputs.bothNc Inputs.bothApi rfl rfl

/-- Strings without a Z are unchanged by the Z-replacement. -/
theorem replaceZ_of_noZ (s : String) (h : s.data.contains 'Z' = false) : replaceZ s = s := by
  rcases s with ⟨data⟩
  rw [replaceZ]
  refine congrArg String.mk ?_
  induction data with
  | nil => rfl
  | cons c cs ih =>
    simp only [List.contains_cons, Bool.or_eq_false_iff] at h
    have hc : ¬ (c = 'Z') := by
      intro hcz
      subst hcz
      simp at h
    simp only [List.foldr_cons, if_neg hc, List.cons.injEq, true_and]
    exact ih h.2

/-- C10: on a record missing eventName, eventSource, eventTime,
userIdentity, errorCode and resources, the normalizer returns (never
raises) an event with event_type Unknown, severity INFO, category other,
status NEW and a null technique mapping, and the missing eventTime is
replaced by the current wall-clock time. -/
theorem C10_normalize_total_defaults (now : String) (sip ua region eid emsg : Option String)
    (h1 : CloudTrail.isIsoShape now = true) (h2 : now.data.contains 'Z' = false) :
    ((CloudTrail.normalize_cloudtrail_event now
        { sourceIPAddress := sip, userAgent := ua, awsRegion := region,
          eventID := eid, errorMessage := emsg }).event_type,
     (CloudTrail.normalize_cloudtrail_event now
        { sourceIPAddress := sip, userAgent := ua, awsRegion := region,
          eventID := eid, errorMessage := emsg }).severity,
     (CloudTrail.normalize_cloudtrail_event now
        { sourceIPAddress := sip, userAgent := ua, awsRegion := region,
          eventID := eid, errorMessage := emsg }).event_category,
     (CloudTrail.normalize_cloudtrail_event now
        { sourceIPAddress := sip, userAgent := ua, awsRegion := region,
          eventID := eid, errorMessage := emsg }).status,
     (CloudTrail.normalize_cloudtrail_event now
        { sourceIPAddress := sip, userAgent := ua, awsRegion := region,
          eventID := eid, errorMessage := emsg }).mitre_attack,
     (CloudTrail.normalize_cloudtrail_event now
        { sourceIPAddress := sip, userAgent := ua, awsRegion := region,
          eventID := eid, errorMessage := emsg }).event_time) =
    ("Unknown", "info", "other", "new", (none : Option CloudTrail.MitreAttackInfo), now) := by
  have hts : CloudTrail.fromisoformat (replaceZ now) = some now := by
    rw [replaceZ_of_noZ now h2, CloudTrail.fromisoformat, if_pos h1]
  simp only [CloudTrail.normalize_cloudtrail_event, Option.getD_none, hts]
  rfl

/-- C10 (witness): the theorem applied at a concrete wall-clock time. -/
theorem C10_witness :
    ((CloudTrail.normalize_cloudtrail_event "2024-01-01T00:00:00" {}).event_type,
     (CloudTrail.normalize_cloudtrail_event "2024-01-01T00:00:00" {}).severity,
     (CloudTrail.normalize_cloudtrail_event "2024-01-01T00:00:00" {}).event_category,
     (CloudTrail.normalize_cloudtrail_event "2024-01-01T00:00:00" {}).status,
     (CloudTrail.normalize_cloudtrail_event "2024-01-01T00:00:00" {}).mitre_attack,
     (CloudTrail.normalize_cloudtrail_event "2024-01-01T00:00:00" {}).event_time) =
    ("Unknown", "info", "other", "new", (none : Option CloudTrail.MitreAttackInfo),
      "2024-01-01T00:00:00") :=
  C10_normalize_total_defaults "2024-01-01T00:00:00" none none none none none
    (by decide) (by decide)

/-! ## SHA-256 constants and concrete digests -/

set_option maxRecDepth 4000 in
/-- The 64 round constants, evaluated. -/
theorem K_eq : Sha256.K = [1116352408, 1899447441, 3049323471, 3921009573, 961987163,
    1508970993, 2453635748, 2870763221, 3624381080, 310598401, 607225278, 1426881987,
    1925078388, 2162078206, 2614888103, 3248222580, 3835390401, 4022224774, 264347078,
    604807628, 770255983, 1249150122, 1555081692, 1996064986, 2554220882, 2821834349,
    2952996808, 3210313671, 3336571891, 3584528711, 113926993, 338241895, 666307205,
    773529912, 1294757372, 1396182291, 1695183700, 1986661051, 2177026350, 2456956037,
    2730485921, 2820302411, 3259730800, 3345764771, 3516065817, 3600352804, 4094571909,
    275423344, 430227734, 506948616, 659060556, 883997877, 958139571, 1322822218,
    1537002063, 1747873779, 1955562222, 2024104815, 2227730452, 2361852424, 2428436474,
    2756734187, 3204031479, 3329325298] := by decide

set_option maxRecDepth 4000 in
/-- The initial hash state, evaluated. -/
theorem H0_eq : Sha256.H0 = [1779033703, 3144134277, 1013904242, 2773480762, 1359893119,
    2600822924, 528734635, 1541459225] := by decide

set_option maxRecDepth 100000 in
/-- Sanity check of the SHA-256 model against the standard test vector. -/
theorem sha256Hex_abc : Sha256.sha256Hex "abc" =
    "ba7816bf8f01cfea414140de5dae2223b00361a396177a9cb410ff61f20015ad" := by
  simp only [Sha256.sha256Hex, Sha256.sha256Words, Sha256.strBytes, Sha256.padBytes,
    Sha256.be64, Sha256.toWords, Sha256.toBlocks, Sha256.schedule, Sha256.schedAux,
    Sha256.compressBlock, Sha256.compressStep, K_eq, H0_eq, Sha256.xor3, Sha256.land32,
    Sha256.not32, Sha256.rotr, Sha256.add32, Sha256.bigSigma0, Sha256.bigSigma1,
    Sha256.smallSigma0, Sha256.smallSigma1, Sha256.hexWord, Sha256.hexDigit,
    List.foldl, List.foldr, List.map, List.zip, List.zipWith, List.getD, List.get?,
    List.length, List.replicate, List.append, List.cons_append, List.nil_append, List.take]
  norm_num

set_option maxRecDepth 100000 in
/-- The 16-hex-char id the tampering counterexample actually emits. -/
theorem sha_tamper_emitted : Sha256.sha256Hex16 "logging_tampering:StopLogging:" =
    "5c5b65e2d4bd37a6" := by
  simp only [Sha256.sha256Hex16, Sha256.sha256Words, Sha256.strBytes, Sha256.padBytes,
    Sha256.be64, Sha256.toWords, Sha256.toBlocks, Sha256.schedule, Sha256.schedAux,
    Sha256.compressBlock, Sha256.compressStep, K_eq, H0_eq, Sha256.xor3, Sha256.land32,
    Sha256.not32, Sha256.rotr, Sha256.add32, Sha256.bigSigma0, Sha256.bigSigma1,
    Sha256.smallSigma0, Sha256.smallSigma1, Sha256.hexWord, Sha256.hexDigit,
    List.foldl, List.foldr, List.map, List.zip, List.zipWith, List.getD, List.get?,
    List.length, List.replicate, List.append, List.cons_append, List.nil_append, List.take]
  norm_num

set_option maxRecDepth 100000 in
/-- The 16-hex-char id the claim's formula computes for that counterexample
(chronologically first member DeleteTrail, network source IP 9.9.9.9). -/
theorem sha_tamper_claimed : Sha256.sha256Hex16 "logging_tampering:DeleteTrail:9.9.9.9" =
    "b15c1795de8e571a" := by
  simp only [Sha256.sha256Hex16, Sha256.sha256Words, Sha256.strBytes, Sha256.padBytes,
    Sha256.be64, Sha256.toWords, Sha256.toBlocks, Sha256.schedule, Sha256.schedAux,
    Sha256.compressBlock, Sha256.compressStep, K_eq, H0_eq, Sha256.xor3, Sha256.land32,
    Sha256.not32, Sha256.rotr, Sha256.add32, Sha256.bigSigma0, Sha256.bigSigma1,
    Sha256.smallSigma0, Sha256.smallSigma1, Sha256.hexWord, Sha256.hexDigit,
    List.foldl, List.foldr, List.map, List.zip, List.zipWith, List.getD, List.get?,
    List.length, List.replicate, List.append, List.cons_append, List.nil_append, List.take]
  norm_num

open Correlator in
/-- C1 (counterexample): on two tampering events given latest-first, the
emitted correlation id hashes the first event in input order (StopLogging)
with an empty source_ip component (the top-level key is absent from
canonical events), while the claim's formula hashes the chronologically
earliest member (DeleteTrail) with its network source IP; the two digests
differ. -/
theorem C1_counterexample :
    (correlate_events [Inputs.trailB, Inputs.trailA]).map (fun r => (r.rule, r.correlation_id)) =
      [("logging_tampering", Sha256.sha256Hex16 "logging_tampering:StopLogging:")] ∧
    timeLe Inputs.trailA Inputs.trailB = true ∧
    Inputs.trailA.event_type = some "DeleteTrail" ∧
    (Inputs.trailA.network.getD {}).source_ip = some (some "9.9.9.9") ∧
    Inputs.trailA.source_ip = none ∧
    ¬ (Sha256.sha256Hex16 "logging_tampering:StopLogging:" =
       Sha256.sha256Hex16 "logging_tampering:DeleteTrail:9.9.9.9") := by
  refine ⟨rfl, by decide, by decide, by decide, by decide, ?_⟩
  rw [sha_tamper_emitted, sha_tamper_claimed]
  decide

open Correlator in
/-- C1 (amended): every record emitted by correlate_events has
correlation_id equal to the first 16 hex chars of
sha256(rule ":" event_type ":" source_ip) of SOME member event, namely the
first member in the record's emitted order (whose id heads event_ids); the
source_ip component is the event's top-level source_ip key (empty when
absent, as it is on canonical events), not the network source IP, and the
member order is the collection order, so reordering identical member events
can change the id. -/
theorem C1_amended (events : List EventDict) (r : CorrelationRecord)
    (h : r ∈ correlate_events events) :
    ∃ e, e ∈ events ∧ r.event_ids.head? = some e.event_id ∧
      r.correlation_id =
        Sha256.sha256Hex16
          (r.rule ++ ":" ++ e.event_type.getD "" ++ ":" ++ e.source_ip.getD "") := by
  rw [correlate_events, List.mem_filterMap] at h
  obtain ⟨o, ho, hid⟩ := h
  simp only [id_eq] at hid
  subst hid
  simp only [List.mem_cons, List.not_mem_nil, or_false] at ho
  rcases ho with hb | hp | hl | hr4
  · obtain ⟨f, fs, hrule, hf, hsub, hids, hcid⟩ := check_brute_force_spec events r hb.symm
    refine ⟨f, hf, ?_, ?_⟩
    · rw [hids]
      rfl
    · rw [hcid, hrule, generate_correlation_id_cons]
  · obtain ⟨aid, login, iams, hrec, hlogin, -⟩ := check_privilege_escalation_spec events r hp.symm
    subst hrec
    exact ⟨login, hlogin, rfl, rfl⟩
  · obtain ⟨t, ts, hrule, ht, hsub, hids, hcid⟩ := check_logging_tampering_spec events r hl.symm
    refine ⟨t, ht, ?_, ?_⟩
    · rw [hids]
      rfl
    · rw [hcid, hrule, generate_correlation_id_cons]
  · obtain ⟨c, cs, hrule, hc, hsub, hids, hcid⟩ := check_reconnaissance_spec events r hr4.symm
    refine ⟨c, hc, ?_, ?_⟩
    · rw [hids]
      rfl
    · rw [hcid, hrule, generate_correlation_id_cons]

open Correlator in
/-- C1 (witness): the amended theorem applied to a single tampering event. -/
theorem C1_witness :
    ∃ e, e ∈ [Inputs.wTamper] ∧
      ((correlate_events [Inputs.wTamper]).headD default).event_ids.head? = some e.event_id ∧
      ((correlate_events [Inputs.wTamper]).headD default).correlation_id =
        Sha256.sha256Hex16
          (((correlate_events [Inputs.wTamper]).headD default).rule ++ ":" ++
            e.event_type.getD "" ++ ":" ++ e.source_ip.getD "") :=
  C1_amended [Inputs.wTamper] _ (List.mem_of_mem_head? rfl)

open Correlator in
/-- C3 (counterexample): for alice's sequence login(10:00), CreateAccessKey
(10:05), login(10:10), CreateUser(10:15), the emitted record's first member
is the most recent successful login (10:10) but the follow-up CreateAccessKey
(10:05) precedes it, refuting "every follow-up occurs after the most recent
successful ConsoleLogin" and the chronological ordering of the sequence. -/
theorem C3_counterexample :
    (check_privilege_escalation
        [Inputs.loginEarly, Inputs.keyMid, Inputs.loginLate, Inputs.userLate]).map
        (fun r => r.event_ids) =
      some [Inputs.loginLate.event_id, Inputs.keyMid.event_id, Inputs.userLate.event_id] ∧
    (check_privilege_escalation
        [Inputs.loginEarly, Inputs.keyMid, Inputs.loginLate, Inputs.userLate]).map
        (fun r => r.sequence) =
      some (some [some "ConsoleLogin", some "CreateAccessKey", some "CreateUser"]) ∧
    succLogin Inputs.loginLate ∧ iamFollow Inputs.keyMid ∧
    timeLe Inputs.loginLate Inputs.keyMid = false := by
  refine ⟨by decide, by decide, ?_, ?_, by decide⟩
  · unfold succLogin
    exact ⟨by decide, by decide⟩
  · unfold iamFollow
    decide

open Correlator in
/-- C3 (amended): check_privilege_escalation groups by actor (user_name,
else ARN, else "unknown"), sorts each bucket chronologically, and emits at
most one CRITICAL record whose sequence begins with the most recent
successful ConsoleLogin of that actor, followed by IAM follow-up events
(CreateAccessKey, CreateUser, AttachUserPolicy, AttachRolePolicy) listed
chronologically; every follow-up occurs after SOME earlier successful
ConsoleLogin of the same actor, though not necessarily after the most
recent one that heads the sequence. -/
theorem C3_amended (events : List EventDict) (r : CorrelationRecord)
    (h : check_privilege_escalation events = some r) :
    r.rule = "privilege_escalation" ∧ r.severity = "critical" ∧
    ∃ aid login iams,
      r.actor = some aid ∧
      login ∈ events ∧ actorKey login = aid ∧ succLogin login ∧
      (∀ x ∈ events, actorKey x = aid → succLogin x → timeLe x login = true) ∧
      iams ≠ [] ∧
      r.sequence = some ((login :: iams).map (fun e => e.event_type)) ∧
      r.event_ids = (login :: iams).map (fun e => e.event_id) ∧
      r.event_count = (login :: iams).length ∧
      (∀ f ∈ iams, f ∈ events ∧ actorKey f = aid ∧ iamFollow f ∧
        ∃ l2, l2 ∈ events ∧ actorKey l2 = aid ∧ succLogin l2 ∧ timeLe l2 f = true) ∧
      List.Chain' (fun a b => timeLe a b = true) iams := by
  obtain ⟨aid, login, iams, hrec, hmem, hkey, hsucc, hne, hiam, hch, hmax⟩ :=
    check_privilege_escalation_spec events r h
  subst hrec
  exact ⟨rfl, rfl, aid, login, iams, rfl, hmem, hkey, hsucc, hmax, hne, rfl, rfl, rfl, hiam, hch⟩

open Correlator in
/-- C3 (witness): the amended theorem applied to bob's login followed by a
CreateAccessKey five minutes later. -/
theorem C3_witness :
    ∃ r, check_privilege_escalation [Inputs.wLogin, Inputs.wKey] = some r ∧
      r.rule = "privilege_escalation" ∧ r.severity = "critical" := by
  refine ⟨(check_privilege_escalation [Inputs.wLogin, Inputs.wKey]).getD default, rfl, ?_, ?_⟩
  · exact (C3_amended [Inputs.wLogin, Inputs.wKey] _ rfl).1
  · exact (C3_amended [Inputs.wLogin, Inputs.wKey] _ rfl).2.1

open Correlator in
/-- C4 (counterexample): two tampering events given latest-first are listed
in event_ids in input order, with the later event's id first, refuting the
chronological ordering of event_ids. -/
theorem C4_counterexample :
    (correlate_events [Inputs.trailB, Inputs.trailA]).map (fun r => (r.rule, r.event_ids)) =
      [("logging_tampering", [Inputs.trailB.event_id, Inputs.trailA.event_id])] ∧
    timeLe Inputs.trailB Inputs.trailA = false := by
  exact ⟨by decide, by decide⟩

open Correlator in
/-- C4 (amended): every record emitted by correlate_events under
brute_force, logging_tampering or reconnaissance lists its event_ids in the
input order of the member events (a subsequence of the input's event_id
sequence), not sorted by event_time; privilege_escalation instead lists the
tracked login first followed by the follow-ups in chronological order. -/
theorem C4_amended (events : List EventDict) (r : CorrelationRecord)
    (h : r ∈ correlate_events events) :
    r.rule = "privilege_escalation" ∨
      r.event_ids.Sublist (events.map (fun e => e.event_id)) := by
  rw [correlate_events, List.mem_filterMap] at h
  obtain ⟨o, ho, hid⟩ := h
  simp only [id_eq] at hid
  subst hid
  simp only [List.mem_cons, List.not_mem_nil, or_false] at ho
  rcases ho with hb | hp | hl | hr4
  · obtain ⟨f, fs, hrule, hf, hsub, hids, hcid⟩ := check_brute_force_spec events r hb.symm
    right
    rw [hids]
    exact hsub.map _
  · left
    obtain ⟨aid, login, iams, hrec, -⟩ := check_privilege_escalation_spec events r hp.symm
    rw [hrec]
  · obtain ⟨t, ts, hrule, ht, hsub, hids, hcid⟩ := check_logging_tampering_spec events r hl.symm
    right
    rw [hids]
    exact hsub.map _
  · obtain ⟨c, cs, hrule, hc, hsub, hids, hcid⟩ := check_reconnaissance_spec events r hr4.symm
    right
    rw [hids]
    exact ((List.take_sublist 20 _).map _).trans (hsub.map _)

open Correlator in
/-- C4 (witness): the amended theorem applied to a single tampering event. -/
theorem C4_witness :
    ((correlate_events [Inputs.wTamper]).headD default).rule = "privilege_escalation" ∨
    ((correlate_events [Inputs.wTamper]).headD default).event_ids.Sublist
      ([Inputs.wTamper].map (fun e => e.event_id)) :=
  C4_amended [Inputs.wTamper] _ (List.mem_of_mem_head? rfl)

end SEA
